import Mathlib

/-!
Verification of the city economic simulation core of the
`circullareconomygame` repository, against its natural-language
specification.  JavaScript sources are shallowly embedded as Lean
definitions: JS numbers become `ℚ`, JS objects used as string-keyed maps
become functions `String → ℚ` together with an ownership predicate
(`hasOwnProperty`), and mutation becomes explicit state passing.
-/

namespace CityGame

/-! ## Resource ledger (`ResourceManager` in `gameState.js`)

The ledger is a JS object `resources` mapping resource-name strings to
numbers, with a second object `limits` (`0` means unlimited).  We model
the pair of objects by an `owned` predicate (`hasOwnProperty`), the
amount map, and the limit map (`this.limits[t] || 0`). -/

structure ResourceManager where
  owned : String → Bool
  amount : String → ℚ
  limit : String → ℚ

/-- Pointwise update of a string-keyed map (a JS property write). -/
def setKey (f : String → ℚ) (k : String) (v : ℚ) : String → ℚ :=
  fun x => if x = k then v else f x

/-- `ResourceManager.addResource(resourceType, amount)`:
warn-and-return-false on an unknown key, clamp to the limit
(returning false) when the limit would be exceeded, otherwise add. -/
def ResourceManager.addResource (rm : ResourceManager) (resourceType : String)
    (a : ℚ) : Bool × ResourceManager :=
  if rm.owned resourceType = false then
    -- console.warn(`Unknown resource type`); return false
    (false, rm)
  else
    let limit := rm.limit resourceType
    let current := rm.amount resourceType
    if limit > 0 ∧ current + a > limit then
      (false, { rm with amount := setKey rm.amount resourceType limit })
    else
      (true, { rm with amount := setKey rm.amount resourceType (current + a) })

/-- `ResourceManager.removeResource(resourceType, amount)`:
warn-and-return-false on an unknown key, fail without mutation when the
stock is insufficient, otherwise subtract. -/
def ResourceManager.removeResource (rm : ResourceManager) (resourceType : String)
    (a : ℚ) : Bool × ResourceManager :=
  if rm.owned resourceType = false then
    (false, rm)
  else
    if rm.amount resourceType ≥ a then
      (true, { rm with amount := setKey rm.amount resourceType (rm.amount resourceType - a) })
    else
      (false, rm)

/-- `ResourceManager.getResource`: `this.resources[resourceType] || 0`. -/
def ResourceManager.getResource (rm : ResourceManager) (resourceType : String) : ℚ :=
  if rm.owned resourceType then rm.amount resourceType else 0

/-- `ResourceManager.hasResources(requirements)`; a requirements object is
a list of (resource name, amount) entries in insertion order. -/
def ResourceManager.hasResources (rm : ResourceManager)
    (requirements : List (String × ℚ)) : Bool :=
  requirements.all fun p => !(rm.getResource p.1 < p.2)

/-- `ResourceManager.consumeResources(requirements)`: check `hasResources`
first, then `removeResource` each entry. -/
def ResourceManager.consumeResources (rm : ResourceManager)
    (requirements : List (String × ℚ)) : Bool × ResourceManager :=
  if rm.hasResources requirements = false then
    (false, rm)
  else
    (true, requirements.foldl (fun s p => (s.removeResource p.1 p.2).2) rm)

/-- The literal `resources` object of the `ResourceManager` constructor. -/
def initialResources : List (String × ℚ) :=
  [("raw-fabric", 50), ("raw-plastic", 30), ("raw-metal", 20),
   ("raw-electronics", 15), ("raw-glass", 10),
   ("clothing", 0), ("sports-gear", 0), ("smartphone", 0), ("laptop", 0),
   ("steel-beam", 0), ("steel-structure", 0), ("electric-car", 0),
   ("electric-bike", 0), ("fertilizer", 0), ("compost", 0),
   ("textile-waste", 0), ("e-waste", 0), ("scrap-metal", 0),
   ("plastic-waste", 0), ("organic-waste", 0),
   ("recycled-fabric", 0), ("recycled-metal", 0), ("recycled-plastic", 0),
   ("recycled-electronics", 0)]

/-- The literal `limits` object (`0` = unlimited). -/
def initialLimits : List (String × ℚ) :=
  [("textile-waste", 100), ("e-waste", 100), ("scrap-metal", 100),
   ("plastic-waste", 100), ("organic-waste", 100)]

/-- The freshly constructed `ResourceManager`. -/
def ResourceManager.init : ResourceManager where
  owned := fun t => (initialResources.lookup t).isSome
  amount := fun t => (initialResources.lookup t).getD 0
  limit := fun t => (initialLimits.lookup t).getD 0

/-! ## Global pollution (`globalPollution.js`)

The pollution pool is a JS object with exactly four fixed keys
(`textile-waste`, `e-waste`, `scrap-metal`, `organic-waste`); `addWaste`
and `removeWaste` guard on `hasOwnProperty`.  We enumerate the keys. -/

inductive PollType | textile | ewaste | scrap | organic
deriving DecidableEq

/-- `this.pollution.hasOwnProperty(wasteType)` together with key lookup. -/
def pollKey (wasteType : String) : Option PollType :=
  if wasteType = "textile-waste" then some .textile
  else if wasteType = "e-waste" then some .ewaste
  else if wasteType = "scrap-metal" then some .scrap
  else if wasteType = "organic-waste" then some .organic
  else none

structure GlobalPollution where
  pollution : PollType → ℚ
  totalPollution : ℚ
  lastPenaltyTick : Int
  penCircularScore : Bool
  penXpReduction : Bool
  penMarketPrices : Bool
  penEventTriggered : Bool

/-- Pointwise update of the pollution map. -/
def setPoll (f : PollType → ℚ) (k : PollType) (v : ℚ) : PollType → ℚ :=
  fun x => if x = k then v else f x

/-- Sum of the four pollution entries (`Object.values(...).reduce`). -/
def GlobalPollution.sumPollution (g : GlobalPollution) : ℚ :=
  g.pollution .textile + g.pollution .ewaste + g.pollution .scrap + g.pollution .organic

/-- `updateTotalPollution`: `min(100, total / Object.keys(...).length)`. -/
def GlobalPollution.updateTotalPollution (g : GlobalPollution) : GlobalPollution :=
  { g with totalPollution := min 100 (g.sumPollution / 4) }

/-- `GlobalPollution.addWaste(wasteType, amount)`. -/
def GlobalPollution.addWaste (g : GlobalPollution) (wasteType : String)
    (a : ℚ) : GlobalPollution :=
  match pollKey wasteType with
  | none => g
  | some k =>
    GlobalPollution.updateTotalPollution
      { g with pollution := setPoll g.pollution k (min 100 (g.pollution k + a)) }

/-- `GlobalPollution.removeWaste(wasteType, amount)`. -/
def GlobalPollution.removeWaste (g : GlobalPollution) (wasteType : String)
    (a : ℚ) : GlobalPollution :=
  match pollKey wasteType with
  | none => g
  | some k =>
    GlobalPollution.updateTotalPollution
      { g with pollution := setPoll g.pollution k (max 0 (g.pollution k - a)) }

/-- `GlobalPollution.decay()`: every entry drops by 0.1, floored at 0. -/
def GlobalPollution.decay (g : GlobalPollution) : GlobalPollution :=
  GlobalPollution.updateTotalPollution
    { g with pollution := fun k => max 0 (g.pollution k - 1/10) }

/-- The slice of `window.gameState` that `applyPenalties` mutates. -/
structure GSMult where
  circularScoreMultiplier : ℚ
  xpMultiplier : ℚ

/-- `this.penaltyCheckInterval`. -/
def penaltyCheckInterval : Int := 10

/-- `GlobalPollution.applyPenalties(currentTick)`.  The returned `Bool`
records whether `triggerPollutionEvent()` (the ≥ 100 crisis event) was
called during this invocation. -/
def GlobalPollution.applyPenalties (g : GlobalPollution) (gs : GSMult)
    (currentTick : Int) : GlobalPollution × GSMult × Bool :=
  if currentTick - g.lastPenaltyTick < penaltyCheckInterval then
    (g, gs, false)
  else
    let g := { g with lastPenaltyTick := currentTick,
                      penCircularScore := false, penXpReduction := false,
                      penMarketPrices := false, penEventTriggered := false }
    let gg :=
      if g.totalPollution ≥ 50 then
        ({ g with penCircularScore := true },
         { gs with circularScoreMultiplier := max (1/2) (1 - g.totalPollution / 100) })
      else (g, gs)
    let g := gg.1
    let gs := gg.2
    let gg :=
      if g.totalPollution ≥ 75 then
        ({ g with penXpReduction := true }, { gs with xpMultiplier := 3/4 })
      else (g, gs)
    let g := gg.1
    let gs := gg.2
    let g := if g.totalPollution ≥ 90 then { g with penMarketPrices := true } else g
    let gf :=
      if g.totalPollution ≥ 100 then ({ g with penEventTriggered := true }, true)
      else (g, false)
    let g := gf.1
    let gs := if g.totalPollution < 20 then { gs with xpMultiplier := 11/10 } else gs
    (g, gs, gf.2)

/-- The freshly constructed `GlobalPollution`. -/
def GlobalPollution.init : GlobalPollution where
  pollution := fun _ => 0
  totalPollution := 0
  lastPenaltyTick := 0
  penCircularScore := false
  penXpReduction := false
  penMarketPrices := false
  penEventTriggered := false

/-! ## City policies (`cityPolicies.js`) -/

inductive ProductionMode | balanced | economy | environment
deriving DecidableEq

structure ModeEffects where
  speed : ℚ
  waste : ℚ
  circularScore : ℚ

/-- `CityPolicies.getProductionModeEffects()`. -/
def getProductionModeEffects : ProductionMode → ModeEffects
  | .economy => ⟨12/10, 125/100, -(1/10)⟩
  | .environment => ⟨85/100, 7/10, 1/10⟩
  | .balanced => ⟨1, 1, 0⟩

/-! ## Level unlocks (`levelUnlocks.js`) -/

/-- The entries of the static `unlockLevels` table that the embedded code
paths consult; `0` encodes a feature missing from the table. -/
def unlockLevel (feature : String) : Nat :=
  if feature = "local-waste" then 3
  else if feature = "hq-policy-panel" then 4
  else if feature = "global-pollution" then 6
  else 0

/-- `LevelUnlocks.isUnlocked(feature, currentLevel)`: a feature missing
from the table is unlocked (backward compatibility). -/
def isUnlocked (feature : String) (currentLevel : Nat) : Bool :=
  let u := unlockLevel feature
  if u = 0 then true else currentLevel ≥ u

/-! ## Power (`PowerModule`, embedded from the repository's
`sim/buildings/factories/steelFactory.js` bundle, second segment) -/

/-- `get isFullyPowered()`: true when `required === 0` (the building
needs no power), else true exactly when the shared energy pool holds at
least `required` units at query time (`gameState.energy >= required`). -/
def isFullyPowered (energy : ℚ) (required : ℚ) : Bool :=
  required = 0 ∨ energy ≥ required

/-! ## Local waste (`WasteModule`, embedded in the repository's
`game.types.ts` bundle) -/

structure WasteModule where
  amount : ℚ
  maxCapacity : ℚ
  productionRate : ℚ
  wasteType : Option String
  lastProductionTick : Int
  productionInterval : Int

/-- `WasteModule.produce(amount)`: clamp at `maxCapacity`. -/
def WasteModule.produce (m : WasteModule) (a : ℚ) : WasteModule :=
  { m with amount := min (m.amount + a) m.maxCapacity }

/-- `WasteModule.remove(amount)`: returns the amount actually removed. -/
def WasteModule.removeW (m : WasteModule) (a : ℚ) : ℚ × WasteModule :=
  let removed := min a m.amount
  (removed, { m with amount := max 0 (m.amount - removed) })

/-- `WasteModule.getEfficiencyPenalty()`: the waste step function. -/
def WasteModule.getEfficiencyPenalty (m : WasteModule) : ℚ :=
  if m.amount ≥ 100 then 0
  else if m.amount ≥ 95 then 1/2
  else if m.amount ≥ 80 then 4/5
  else 1

/-- `WasteModule.simulate(city, currentTick)`: waste is produced every
`productionInterval` ticks once the waste system is unlocked, and 10% of
each emission leaks into the global pollution pool once global pollution
is unlocked. -/
def WasteModule.simulate (m : WasteModule) (playerLevel : Nat)
    (gp : GlobalPollution) (currentTick : Int) : WasteModule × GlobalPollution :=
  if isUnlocked "local-waste" playerLevel = false then (m, gp)
  else if m.productionRate > 0 ∧ m.wasteType ≠ none ∧
      currentTick - m.lastProductionTick ≥ m.productionInterval then
    let wasteProduced := m.productionRate
    let m := { m.produce wasteProduced with lastProductionTick := currentTick }
    let gp :=
      if isUnlocked "global-pollution" playerLevel then
        gp.addWaste (m.wasteType.getD "") (wasteProduced * (1/10))
      else gp
    (m, gp)
  else (m, gp)

/-! ## Game state slice threaded through building simulation -/

/-- The `xpRequirements` table of `GameState` (cumulative XP per level). -/
def xpRequirement (level : Nat) : ℚ :=
  if level = 1 then 0 else if level = 2 then 100 else if level = 3 then 250
  else if level = 4 then 500 else if level = 5 then 1000
  else if level = 6 then 2000 else if level = 7 then 4000
  else if level = 8 then 8000 else if level = 9 then 16000
  else if level = 10 then 32000 else 0

structure GameWorld where
  energy : ℚ
  playerLevel : Nat
  xp : ℚ
  circularScore : ℚ
  productionMode : ProductionMode
  rm : ResourceManager
  gp : GlobalPollution

/-- `GameState.addXP(amount)` followed by `checkLevelUp()`. -/
def GameWorld.addXP (w : GameWorld) (amount : ℚ) : GameWorld :=
  let w := { w with xp := w.xp + amount }
  let nextLevel := w.playerLevel + 1
  if nextLevel ≤ 10 ∧ w.xp ≥ xpRequirement nextLevel then
    { w with playerLevel := nextLevel }
  else w

/-- `GameState.updateCircularScore(amount)`: add, floored at 0. -/
def GameWorld.updateCircularScore (w : GameWorld) (amount : ℚ) : GameWorld :=
  let s := w.circularScore + amount
  { w with circularScore := if s < 0 then 0 else s }

/-- `GameState.consumeEnergy(amount)`. -/
def GameWorld.consumeEnergy (w : GameWorld) (amount : ℚ) : Bool × GameWorld :=
  if w.energy ≥ amount then (true, { w with energy := w.energy - amount })
  else (false, w)

/-! ## Factories (`sim/buildings/factory.js`)

A recipe's `requiredLevel` is encoded as a `Nat` where `0` stands for a
missing (falsy) property, matching the truthiness test
`recipe.requiredLevel && ...`.  The `output` property on recipes and the
`product` property on queue jobs do not exist in the source data
(`#checkMissingResources` reads both, comparing `undefined === undefined`),
so they are carried as `Option String` fields that are always `none`. -/

structure Recipe where
  id : String
  name : String
  inputs : List (String × ℚ)
  outputs : List (String × ℚ)
  waste : List (String × ℚ)
  duration : ℚ
  requiredLevel : Nat
  output : Option String := none
deriving DecidableEq

structure Job where
  recipe : Recipe
  progress : ℚ
  totalTime : ℚ
  product : Option String := none
deriving DecidableEq

/-- The `JobsModule` state as seen from a factory: its list of workers
(citizen ids). -/
structure JobsView where
  workers : List Nat

structure Factory where
  level : Nat
  maxLevel : Nat
  productionQueue : List Job
  energyConsumption : ℚ
  baseWasteProduction : ℚ
  recipes : List Recipe
  waste : WasteModule
  jobs : Option JobsView
  requiredWorkers : Nat
  powerRequired : ℚ
  status : String
  roadAccess : Bool

/-- `get currentWorkers`: `this.jobs ? this.jobs.workers.length : 0`. -/
def Factory.currentWorkers (f : Factory) : Nat :=
  match f.jobs with
  | some j => j.workers.length
  | none => 0

/-- `get productionEfficiency` (power, workers, level, production mode). -/
def Factory.productionEfficiency (f : Factory) (w : GameWorld) : ℚ :=
  if isFullyPowered w.energy f.powerRequired = false then
    1/2
  else
    let currentWorkers := f.currentWorkers
    let baseEfficiency := min 1 (7/10 + ((f.level : ℚ) - 1) * (1/10))
    if currentWorkers < f.requiredWorkers ∧ currentWorkers = 0 then 0
    else
      let baseEfficiency :=
        if currentWorkers < f.requiredWorkers then
          baseEfficiency * ((currentWorkers : ℚ) / (f.requiredWorkers : ℚ))
        else baseEfficiency
      let baseEfficiency :=
        if isUnlocked "hq-policy-panel" w.playerLevel then
          baseEfficiency * (getProductionModeEffects w.productionMode).speed
        else baseEfficiency
      min 1 baseEfficiency

/-- `get wasteProductionMultiplier`. -/
def Factory.wasteProductionMultiplier (_f : Factory) (w : GameWorld) : ℚ :=
  if isUnlocked "hq-policy-panel" w.playerLevel then
    (getProductionModeEffects w.productionMode).waste
  else 1

/-- `get wasteProduction`: 5% waste reduction per level, times the
production-mode waste multiplier. -/
def Factory.wasteProduction (f : Factory) (w : GameWorld) : ℚ :=
  let efficiency := 1 - ((f.level : ℚ) - 1) * (5/100)
  let baseWaste := max 0 (f.baseWasteProduction * efficiency)
  baseWaste * f.wasteProductionMultiplier w

/-- `Factory.canProduce(recipe)`: gated only by the factory's own level,
then availability in this factory's recipe table. -/
def Factory.canProduce (f : Factory) (recipe : Recipe) : Bool :=
  if recipe.requiredLevel ≠ 0 ∧ f.level < recipe.requiredLevel then false
  else f.recipes.any fun r => r.id == recipe.id

/-- `Factory.completeProduction(job)`: credit outputs, emit waste scaled
by the current waste multiplier, award XP. -/
def Factory.completeProduction (f : Factory) (w : GameWorld) (job : Job) :
    GameWorld :=
  let recipe := job.recipe
  let w := recipe.outputs.foldl
    (fun w p => { w with rm := (w.rm.addResource p.1 p.2).2 }) w
  let w := recipe.waste.foldl
    (fun w p =>
      { w with rm :=
          (w.rm.addResource p.1 (p.2 * f.wasteProduction w / f.baseWasteProduction)).2 }) w
  w.addXP 5

/-- The queue-processing loop of `Factory.simulate`: each job's progress
advances by the adjusted efficiency; completed jobs are removed.  The JS
loop walks the queue from the end, so later jobs complete (and apply
their outputs) before earlier ones. -/
def Factory.advanceJobs (f : Factory) (eff : ℚ) :
    List Job → GameWorld → List Job × GameWorld
  | [], w => ([], w)
  | j :: rest, w =>
    let rw := Factory.advanceJobs f eff rest w
    let j := { j with progress := j.progress + eff }
    if j.progress ≥ j.totalTime then (rw.1, f.completeProduction rw.2 j)
    else (j :: rw.1, rw.2)

/-- `Factory.addProduction(recipe)`: re-check gating and resources, push
the job, consume the inputs. -/
def Factory.addProduction (f : Factory) (w : GameWorld) (recipe : Recipe) :
    Bool × Factory × GameWorld :=
  if f.canProduce recipe = false then (false, f, w)
  else if w.rm.hasResources recipe.inputs = false then (false, f, w)
  else
    let job : Job := { recipe := recipe, progress := 0, totalTime := recipe.duration }
    let f := { f with productionQueue := f.productionQueue ++ [job] }
    let w := { w with rm := (w.rm.consumeResources recipe.inputs).2 }
    (true, f, w)

/-- `a.requiredLevel || 1`. -/
def recipeLevel (r : Recipe) : Nat :=
  if r.requiredLevel = 0 then 1 else r.requiredLevel

/-- The comparator passed to `Array.prototype.sort` in
`startAutomaticProduction`: among recipes open at the factory's level,
higher `requiredLevel` first; otherwise lower first. -/
def recipeCompare (level : Nat) (a b : Recipe) : Int :=
  let levelA := recipeLevel a
  let levelB := recipeLevel b
  if levelA ≤ level ∧ levelB ≤ level then (levelB : Int) - (levelA : Int)
  else (levelA : Int) - (levelB : Int)

/-- Stable insertion used to model `Array.prototype.sort` (which is
specified to be stable): `a` is placed before the first element `b` with
`le a b`. -/
def sortInsert {α : Type} (le : α → α → Bool) (a : α) : List α → List α
  | [] => [a]
  | b :: l => if le a b then a :: b :: l else b :: sortInsert le a l

/-- Stable sort by a boolean comparator-induced order. -/
def stableSort {α : Type} (le : α → α → Bool) : List α → List α
  | [] => []
  | a :: l => sortInsert le a (stableSort le l)

/-- One pass of the `while` loop in `Factory.startAutomaticProduction`.
The loop body appends one job per iteration until the queue holds 5 jobs
or no recipe is producible, so 5 units of fuel bound it. -/
def Factory.startAutoProductionAux :
    Nat → Factory → GameWorld → Factory × GameWorld
  | 0, f, w => (f, w)
  | fuel + 1, f, w =>
    if f.productionQueue.length < 5 then
      let sortedRecipes :=
        stableSort (fun a b => recipeCompare f.level a b ≤ 0) f.recipes
      match sortedRecipes.find?
          (fun r => f.canProduce r && w.rm.hasResources r.inputs) with
      | some recipe =>
        let bfw := f.addProduction w recipe
        Factory.startAutoProductionAux fuel bfw.2.1 bfw.2.2
      | none => (f, w)
    else (f, w)

/-- `Factory.startAutomaticProduction()`: fill the queue up to
`maxQueueSize = 5`. -/
def Factory.startAutomaticProduction (f : Factory) (w : GameWorld) :
    Factory × GameWorld :=
  Factory.startAutoProductionAux 5 f w

/-- `Factory.#checkMissingResources()`: status-icon bookkeeping.  Note
`this.recipes.find(r => r.output === job.product)` compares two absent
properties (`undefined === undefined`), so it returns the first recipe. -/
def Factory.checkMissingResources (f : Factory) (w : GameWorld) : Factory :=
  if isFullyPowered w.energy f.powerRequired = false then
    if f.status = "missing-resources" then { f with status := "ok" } else f
  else
    let hasMissing :=
      f.recipes.any fun r => f.canProduce r && !(w.rm.hasResources r.inputs)
    let hasMissing :=
      if hasMissing = false ∧ f.productionQueue.length > 0 then
        f.productionQueue.any fun j =>
          match f.recipes.find? (fun r => r.output == j.product) with
          | some recipe => !(w.rm.hasResources recipe.inputs)
          | none => false
      else hasMissing
    if hasMissing then
      if f.status ≠ "missing-resources" then { f with status := "missing-resources" } else f
    else
      if f.status = "missing-resources" then { f with status := "ok" } else f

/-- `Building.simulate(city)` as inherited by `Factory`: draw energy from
the shared pool if available, then update the status field.  The
road-access module's source is not in the snapshot; its value is carried
as the `roadAccess` field. -/
def Factory.simulateBase (f : Factory) (w : GameWorld) : Factory × GameWorld :=
  let w :=
    if f.powerRequired > 0 ∧ w.energy ≥ f.powerRequired then
      (w.consumeEnergy f.powerRequired).2
    else w
  let f :=
    if isUnlocked "local-waste" w.playerLevel ∧ f.waste.amount ≥ 95 then
      { f with status := "critical-waste" }
    else if isFullyPowered w.energy f.powerRequired = false then
      { f with status := "no-power" }
    else if f.roadAccess = false then
      { f with status := "no-road-access" }
    else
      { f with status := "ok" }
  (f, w)

/-- The power-gated production block at the end of `Factory.simulate`:
advance the queue at the waste-adjusted efficiency, refill it, and
update the status icon. -/
def Factory.productionPhase (f : Factory) (w : GameWorld) (wastePenalty : ℚ) :
    Factory × GameWorld :=
  if isFullyPowered w.energy f.powerRequired then
    let originalEfficiency := f.productionEfficiency w
    let adjustedEfficiency := originalEfficiency * wastePenalty
    let fw :=
      if f.productionQueue.length > 0 ∧ adjustedEfficiency > 0 then
        let qw := f.advanceJobs adjustedEfficiency f.productionQueue w
        ({ f with productionQueue := qw.1 }, qw.2)
      else (f, w)
    let f := fw.1
    let w := fw.2
    let fw :=
      if adjustedEfficiency > 0 then f.startAutomaticProduction w else (f, w)
    ((fw.1).checkMissingResources fw.2, fw.2)
  else
    (f.checkMissingResources w, w)

/-- `Factory.simulate(city, currentTick)`.  The `refreshView` calls and
the jobs-module call (a no-op for factories, which have no development
state) are visual/no-op and omitted. -/
def Factory.simulate (f : Factory) (w : GameWorld) (currentTick : Int) :
    Factory × GameWorld :=
  let fw := f.simulateBase w
  let f := fw.1
  let w := fw.2
  let wasteSystemUnlocked := isUnlocked "local-waste" w.playerLevel
  let fw :=
    if wasteSystemUnlocked then
      let mg := f.waste.simulate w.playerLevel w.gp currentTick
      ({ f with waste := mg.1 }, { w with gp := mg.2 })
    else (f, w)
  let f := fw.1
  let w := fw.2
  let wastePenalty := if wasteSystemUnlocked then f.waste.getEfficiencyPenalty else 1
  f.productionPhase w wastePenalty

/-! ## Recycling center (`sim/buildings/recyclingCenter.js`)

For the local-waste pass, the city is modelled as the traverse-ordered
list of the waste modules of those placed buildings that have one
(`obj.building && obj.building.waste`). -/

structure RecyclingCenter where
  level : Nat
  maxLevel : Nat
  energyConsumption : ℚ
  boostRemaining : Nat
  autoRecycling : Bool
  powerRequired : ℚ
  status : String
  roadAccess : Bool

/-- `this.efficiencyByLevel[this.level] || 0.5`. -/
def efficiencyByLevel (level : Nat) : ℚ :=
  if level = 1 then 1/2
  else if level = 2 then 7/10
  else if level = 3 then 9/10
  else 1/2

/-- `this.boostEfficiencyBonus`. -/
def boostEfficiencyBonus : ℚ := 1/10

/-- `get efficiency`: base efficiency plus boost, clamped at 1.0. -/
def RecyclingCenter.efficiency (rc : RecyclingCenter) : ℚ :=
  let baseEfficiency := efficiencyByLevel rc.level
  let boost := if rc.boostRemaining > 0 then boostEfficiencyBonus else 0
  min 1 (baseEfficiency + boost)

/-- `this.autoRecyclingRateByLevel[this.level] || 2`. -/
def RecyclingCenter.autoRecyclingRate (rc : RecyclingCenter) : ℚ :=
  if rc.level = 1 then 2
  else if rc.level = 2 then 4
  else if rc.level = 3 then 6
  else 2

/-- `this.wasteRecipes`: waste type → recycled material. -/
def wasteRecipes : List (String × String) :=
  [("textile-waste", "recycled-fabric"), ("e-waste", "recycled-electronics"),
   ("scrap-metal", "recycled-metal"), ("plastic-waste", "recycled-plastic")]

/-- State threaded through the local-waste pass of
`processAutoRecycling`: rewritten city (reversed accumulator), resource
manager, pollution, total recycled so far, local waste processed so far. -/
structure LocalPass where
  cityRev : List WasteModule
  rm : ResourceManager
  gp : GlobalPollution
  totalRecycled : ℚ
  processedLocalWaste : ℚ
  rateBound : ℚ

/-- One building of the local-waste pass of `processAutoRecycling`. -/
def localStep (efficiency : ℚ) (acc : LocalPass) (waste : WasteModule) :
    LocalPass :=
  let wt := waste.wasteType.getD ""
  if acc.processedLocalWaste < acc.rateBound ∧ waste.amount > 0 ∧
      waste.wasteType ≠ none ∧ (wasteRecipes.lookup wt).isSome then
    let recycledType := (wasteRecipes.lookup wt).getD ""
    let toRecycle := min waste.amount 1
    let recycledAmount := toRecycle * efficiency
    let rw := waste.removeW toRecycle
    let rm := (acc.rm.addResource recycledType recycledAmount).2
    let gp := acc.gp.removeWaste wt (toRecycle * (1/10))
    { acc with cityRev := rw.2 :: acc.cityRev, rm := rm, gp := gp,
               totalRecycled := acc.totalRecycled + recycledAmount,
               processedLocalWaste := acc.processedLocalWaste + toRecycle }
  else
    { acc with cityRev := waste :: acc.cityRev }

/-- `RecyclingCenter.processAutoRecycling()`: the global-waste pass over
`wasteRecipes`, then the local-waste pass over the city's buildings,
then XP / circular-score credit. -/
def RecyclingCenter.processAutoRecycling (rc : RecyclingCenter)
    (w : GameWorld) (city : List WasteModule) :
    GameWorld × List WasteModule :=
  if isFullyPowered w.energy rc.powerRequired = false then (w, city)
  else
    let efficiency := rc.efficiency
    let rate := rc.autoRecyclingRate
    let globalStep := fun (acc : ResourceManager × ℚ) (p : String × String) =>
      let wasteAmount := acc.1.getResource p.1
      if wasteAmount > 0 then
        let toRecycle := min wasteAmount rate
        let recycledAmount := toRecycle * efficiency
        let rm := (acc.1.removeResource p.1 toRecycle).2
        let rm := (rm.addResource p.2 recycledAmount).2
        (rm, acc.2 + recycledAmount)
      else acc
    let rt := wasteRecipes.foldl globalStep (w.rm, 0)
    let maxLocalWastePerTick := rate
    let res := city.foldl (localStep efficiency)
      { cityRev := [], rm := rt.1, gp := w.gp, totalRecycled := rt.2,
        processedLocalWaste := 0, rateBound := maxLocalWastePerTick }
    let w := { w with rm := res.rm, gp := res.gp }
    let w :=
      if res.totalRecycled > 0 then
        (w.addXP ((⌊res.totalRecycled * (1/2)⌋ : ℤ) : ℚ)).updateCircularScore
          ((⌊res.totalRecycled⌋ : ℤ) : ℚ)
      else w
    (w, res.cityRev.reverse)

/-- `RecyclingCenter.simulate(city, currentTick)` (the later of the two
identical definitions in the class body): draw energy via the inherited
`Building.simulate`, update the status field, tick the boost timer down,
then auto-recycle if enabled and powered. -/
def RecyclingCenter.simulate (rc : RecyclingCenter) (w : GameWorld)
    (city : List WasteModule) :
    RecyclingCenter × GameWorld × List WasteModule :=
  let w :=
    if rc.powerRequired > 0 ∧ w.energy ≥ rc.powerRequired then
      (w.consumeEnergy rc.powerRequired).2
    else w
  let rc :=
    if isFullyPowered w.energy rc.powerRequired = false then
      { rc with status := "no-power" }
    else if rc.roadAccess = false then
      { rc with status := "no-road-access" }
    else
      { rc with status := "ok" }
  let rc :=
    if rc.boostRemaining > 0 then { rc with boostRemaining := rc.boostRemaining - 1 }
    else rc
  if rc.autoRecycling ∧ isFullyPowered w.energy rc.powerRequired then
    let wc := rc.processAutoRecycling w city
    (rc, wc.1, wc.2)
  else (rc, w, city)

/-! ## Citizens and worker allocation (`sim/citizen.js`,
`sim/buildings/modules/jobs.js`)

Citizens and buildings are stored in id-keyed stores; JS object
references become ids, and `===` on building references becomes id
equality.  The files `config.js`, `city.js` and
`modules/development.js` are not in the repository snapshot, so the two
config constants, the grid accessor `city.getTile`, and the development
state enum are modelled from the spec (§3): the grid is an
`Int × Int → Option buildingId` map scanned in x-then-y order, and
development states are the four named zone states. -/

namespace CitizenSim

inductive DevelopmentState | undeveloped | underConstruction | developed | abandoned
deriving DecidableEq

inductive CState | idle | school | employed | unemployed | retired
deriving DecidableEq

structure Citizen where
  age : Nat
  state : CState
  stateCounter : Nat
  residence : Nat
  workplace : Option Nat

structure JobsSt where
  workers : List Nat

structure DevSt where
  state : DevelopmentState
  level : Nat

/-- A building as the citizen/jobs code sees it, duck-typed: optional
`jobs` module, optional `requiredWorkers` (factories), optional
`maxWorkers` getter value, optional `development` module (zones). -/
structure CBuilding where
  btype : String
  jobs : Option JobsSt
  requiredWorkers : Option Nat
  maxWorkersProp : Option Nat
  development : Option DevSt

structure CWorld where
  size : Nat
  tile : Int → Int → Option Nat
  buildings : Nat → CBuilding
  citizens : Nat → Option Citizen
  workforceDistribution : Option (ℚ × ℚ × ℚ)
  cfgJobsMaxWorkers : Nat
  maxJobSearchDistance : Nat
  minWorkingAge : Nat
  retirementAge : Nat

/-- `JobsModule.maxWorkers` getter: the building's own `maxWorkers` if
defined, else development-based for zones, else 0. -/
def jmMaxWorkers (w : CWorld) (b : CBuilding) : Nat :=
  match b.maxWorkersProp with
  | some m => m
  | none =>
    match b.development with
    | some dev =>
      if dev.state ≠ DevelopmentState.developed then 0
      else w.cfgJobsMaxWorkers ^ dev.level
    | none => 0

/-- The workers list of a building (empty when it has no jobs module). -/
def workersOf (w : CWorld) (bid : Nat) : List Nat :=
  match (w.buildings bid).jobs with
  | some jm => jm.workers
  | none => []

/-- Store update: overwrite one citizen record. -/
def setCitizen (w : CWorld) (cid : Nat) (c : Citizen) : CWorld :=
  { w with citizens := fun x => if x = cid then some c else w.citizens x }

/-- Store update: overwrite one building's workers list (only used on
buildings that have a jobs module). -/
def setWorkers (w : CWorld) (bid : Nat) (l : List Nat) : CWorld :=
  { w with buildings := fun x =>
      if x = bid then { w.buildings x with jobs := some ⟨l⟩ }
      else w.buildings x }

/-- The x-then-y grid scan order used by every loop over city tiles. -/
def coordList (size : Nat) : List (Nat × Nat) :=
  (List.range size).flatMap fun x => (List.range size).map fun y => (x, y)

/-- First tile whose building reference equals `bid`
(`tile && tile.building === b` scans with early break). -/
def findTileOf (w : CWorld) (bid : Nat) : Option (Nat × Nat) :=
  (coordList w.size).find? fun p => decide (w.tile p.1 p.2 = some bid)

/-- A candidate entry of the `availableJobs` array. -/
structure Cand where
  bid : Nat
  jobType : String
  distance : Nat
  priority : ℚ := 0

/-- The per-tile candidate classification inside the job-search loop of
`Citizen.#findJob`. -/
def classifyTile (w : CWorld) (cid : Nat) (x y : Int) (distance : Nat) :
    Option Cand :=
  match w.tile x y with
  | none => none
  | some bid =>
    let building := w.buildings bid
    match building.jobs with
    | none => none
    | some jm =>
      if building.requiredWorkers.isSome then
        let currentWorkers := jm.workers.length
        let maxWorkers :=
          match building.maxWorkersProp with
          | some m => m
          | none => jmMaxWorkers w building
        if currentWorkers < maxWorkers ∧ cid ∉ jm.workers then
          some { bid := bid, jobType := "factories", distance := distance }
        else none
      else if building.btype = "recycling-center" then
        let m := jmMaxWorkers w building
        let maxWorkers := if m = 0 then 10 else m
        if jm.workers.length < maxWorkers ∧ cid ∉ jm.workers then
          some { bid := bid, jobType := "recycling", distance := distance }
        else none
      else if building.btype = "commercial" then
        if (jmMaxWorkers w building : Int) - jm.workers.length > 0 ∧
            cid ∉ jm.workers then
          some { bid := bid, jobType := "commercial", distance := distance }
        else none
      else none

/-- The `(dx, dy)` offsets at one Manhattan distance, in JS loop order
(`dx` outer ascending, `dy` inner ascending, skipping non-ring cells). -/
def ringOffsets (distance : Nat) : List (Int × Int) :=
  (List.range (2 * distance + 1)).flatMap fun i =>
    (List.range (2 * distance + 1)).filterMap fun j =>
      let dx : Int := (i : Int) - (distance : Int)
      let dy : Int := (j : Int) - (distance : Int)
      if dx.natAbs + dy.natAbs = distance then some (dx, dy) else none

/-- Collect `availableJobs` over distances `1..maxJobSearchDistance`
from the residence tile. -/
def collectJobs (w : CWorld) (cid : Nat) (rx ry : Nat) : List Cand :=
  ((List.range w.maxJobSearchDistance).map (· + 1)).flatMap fun distance =>
    (ringOffsets distance).filterMap fun p =>
      classifyTile w cid ((rx : Int) + p.1) ((ry : Int) + p.2) distance

/-- The worker-count pass of the workforce-distribution scoring:
(factories, recycling, commercial) totals, excluding this citizen. -/
def countWorkers (w : CWorld) (cid : Nat) : ℚ × ℚ × ℚ :=
  (coordList w.size).foldl
    (fun acc p =>
      match w.tile p.1 p.2 with
      | none => acc
      | some bid =>
        let building := w.buildings bid
        match building.jobs with
        | none => acc
        | some jm =>
          let workerCount : ℚ :=
            (jm.workers.length : ℚ) - (if cid ∈ jm.workers then 1 else 0)
          if building.requiredWorkers.isSome then
            (acc.1 + workerCount, acc.2.1, acc.2.2)
          else if building.btype = "recycling-center" then
            (acc.1, acc.2.1 + workerCount, acc.2.2)
          else if building.btype = "commercial" then
            (acc.1, acc.2.1, acc.2.2 + workerCount)
          else acc)
    (0, 0, 0)

/-- Deficit-maximisation scoring and sort of the candidate list under an
active workforce-distribution policy. -/
def scoreJobs (w : CWorld) (cid : Nat) (dist : ℚ × ℚ × ℚ)
    (jobs : List Cand) : List Cand :=
  let cur := countWorkers w cid
  let totalCurrent := cur.1 + cur.2.1 + cur.2.2
  let desired := fun t =>
    if t = "factories" then dist.1 / 100
    else if t = "recycling" then dist.2.1 / 100
    else if t = "commercial" then dist.2.2 / 100 else 0
  let current := fun t =>
    if totalCurrent > 0 then
      if t = "factories" then cur.1 / totalCurrent
      else if t = "recycling" then cur.2.1 / totalCurrent
      else if t = "commercial" then cur.2.2 / totalCurrent else 0
    else 0
  let jobs := jobs.map fun job =>
    { job with priority :=
        (desired job.jobType - current job.jobType) * 1000 - (job.distance : ℚ) }
  stableSort (fun a b => decide (b.priority ≤ a.priority)) jobs

/-- Fixed preference order when no policy is active:
factories > recycling > commercial, then nearest first. -/
def typeOrder (t : String) : Int :=
  if t = "factories" then 3
  else if t = "recycling" then 2
  else if t = "commercial" then 1 else 0

def sortNoPolicy (jobs : List Cand) : List Cand :=
  stableSort
    (fun a b =>
      let orderDiff := typeOrder b.jobType - typeOrder a.jobType
      if orderDiff ≠ 0 then decide (orderDiff ≤ 0)
      else decide ((a.distance : Int) - (b.distance : Int) ≤ 0))
    jobs

/-- The search part of `Citizen.#findJob` (after the
current-workplace check): locate the residence tile, collect and rank
candidates, then employ the citizen at the top candidate. -/
def findJobSearch (w : CWorld) (cid : Nat) (c : Citizen) :
    CWorld × Option Nat :=
  match findTileOf w c.residence with
  | none => (w, none)
  | some rt =>
    let availableJobs := collectJobs w cid rt.1 rt.2
    if availableJobs.length = 0 then (w, none)
    else
      let sorted :=
        match w.workforceDistribution with
        | some dist => scoreJobs w cid dist availableJobs
        | none => sortNoPolicy availableJobs
      match sorted.head? with
      | none => (w, none)
      | some selectedJob =>
        match (w.buildings selectedJob.bid).jobs with
        | none => (w, none)
        | some jm =>
          let w :=
            if cid ∈ jm.workers then w
            else setWorkers w selectedJob.bid (jm.workers ++ [cid])
          (w, some selectedJob.bid)

/-- `Citizen.#findJob(city)`: keep a still-valid current workplace,
clean up an invalid one, otherwise search. -/
def findJob (w : CWorld) (cid : Nat) (c : Citizen) : CWorld × Option Nat :=
  match c.workplace with
  | some wp =>
    if (findTileOf w wp).isSome ∧ cid ∈ workersOf w wp then (w, some wp)
    else
      let w :=
        match (w.buildings wp).jobs with
        | some jm => setWorkers w wp (jm.workers.erase cid)
        | none => w
      findJobSearch w cid c
  | none => findJobSearch w cid c

/-- `JobsModule.#layOffWorkers`, first half: each worker's record is set
to unemployed with no workplace. -/
def layOff (w : CWorld) (ids : List Nat) : CWorld :=
  ids.foldl
    (fun w i =>
      match w.citizens i with
      | some c =>
        setCitizen w i { c with workplace := none, state := .unemployed, stateCounter := 0 }
      | none => w)
    w

/-- `JobsModule.simulate(city)`: an abandoned zone lays off all its
workers; otherwise nothing happens. -/
def jobsModuleSimulate (w : CWorld) (bid : Nat) : CWorld :=
  match (w.buildings bid).jobs with
  | none => w
  | some jm =>
    match (w.buildings bid).development with
    | some dev =>
      if dev.state = DevelopmentState.abandoned then
        setWorkers (layOff w jm.workers) bid []
      else w
    | none => w

/-- The `maxWorkers` fallback chain of the employed-state re-add path
(`citizen.js` lines 123–125, with JS `||`/`?:` falsiness). -/
def reAddMaxWorkers (w : CWorld) (b : CBuilding) : Nat :=
  let jmFallback := let m := jmMaxWorkers w b; if m = 0 then 10 else m
  match b.maxWorkersProp with
  | some m =>
    if m ≠ 0 then m
    else
      match b.requiredWorkers with
      | some r => if r ≠ 0 then r * 2 else jmFallback
      | none => jmFallback
  | none =>
    match b.requiredWorkers with
    | some r => if r ≠ 0 then r * 2 else jmFallback
    | none => jmFallback

/-- `Citizen.simulate(city)`: the per-tick citizen state machine. -/
def citizenSimulate (w : CWorld) (cid : Nat) : CWorld :=
  match w.citizens cid with
  | none => w
  | some c =>
    match c.state with
    | .idle | .school | .retired => w
    | .unemployed =>
      let ww :=
        if c.workplace = none then findJob w cid c else (w, c.workplace)
      let w := ww.1
      let c := { c with workplace := ww.2 }
      match c.workplace with
      | some wp =>
        let w :=
          match (w.buildings wp).jobs with
          | some jm =>
            if cid ∈ jm.workers then w
            else setWorkers w wp (jm.workers ++ [cid])
          | none => w
        setCitizen w cid { c with state := .employed, stateCounter := 0 }
      | none => setCitizen w cid c
    | .employed =>
      match c.workplace with
      | none => setCitizen w cid { c with state := .unemployed, stateCounter := 0 }
      | some wp =>
        match (w.buildings wp).jobs with
        | none =>
          setCitizen w cid
            { c with workplace := none, state := .unemployed, stateCounter := 0 }
        | some jm =>
          let se :=
            if cid ∈ jm.workers then (w, true)
            else
              if jm.workers.length < reAddMaxWorkers w (w.buildings wp) then
                (setWorkers w wp (jm.workers ++ [cid]), true)
              else (w, false)
          let w := se.1
          let stillEmployed := se.2
          if stillEmployed ∧ c.stateCounter % 20 = 0 then
            if ((coordList w.size).any fun p => decide (w.tile p.1 p.2 = some wp)) = false then
              let w :=
                match (w.buildings wp).jobs with
                | some jm2 => setWorkers w wp (jm2.workers.erase cid)
                | none => w
              setCitizen w cid
                { c with workplace := none, state := .unemployed, stateCounter := 0 }
            else
              setCitizen w cid { c with stateCounter := c.stateCounter + 1 }
          else
            if stillEmployed = false then
              setCitizen w cid
                { c with workplace := none, state := .unemployed, stateCounter := 0 }
            else
              setCitizen w cid { c with stateCounter := c.stateCounter + 1 }

/-- `Citizen.dispose()`: remove from the workplace's worker list, clear
the link, then remove the citizen from the store. -/
def citizenDispose (w : CWorld) (cid : Nat) : CWorld :=
  match w.citizens cid with
  | none => w
  | some c =>
    let w :=
      match c.workplace with
      | some wp =>
        match (w.buildings wp).jobs with
        | some jm => setWorkers w wp (jm.workers.erase cid)
        | none => w
      | none => w
    { w with citizens := fun x => if x = cid then none else w.citizens x }

/-- `Factory.dispose()` / bulldoze: lay off all workers (via
`JobsModule.dispose`) and clear the building's tiles. -/
def buildingDispose (w : CWorld) (bid : Nat) : CWorld :=
  let w :=
    match (w.buildings bid).jobs with
    | some jm => setWorkers (layOff w jm.workers) bid []
    | none => w
  { w with tile := fun x y => if w.tile x y = some bid then none else w.tile x y }

/-- `Citizen.#initializeState()`. -/
def initializeState (w : CWorld) (age : Nat) : CState :=
  if age < w.minWorkingAge then .school
  else if age ≥ w.retirementAge then .retired
  else .unemployed

/-- Residential growth spawns a citizen (constructor + initial state). -/
def spawnCitizen (w : CWorld) (cid : Nat) (age : Nat) (residence : Nat) : CWorld :=
  setCitizen w cid
    { age := age, state := initializeState w age, stateCounter := 0,
      residence := residence, workplace := none }

/-- Placement of a freshly constructed building on a tile. -/
def placeBuilding (w : CWorld) (x y : Int) (bid : Nat) (b : CBuilding) : CWorld :=
  { w with
    buildings := fun i => if i = bid then b else w.buildings i,
    tile := fun a c => if a = x ∧ c = y then some bid else w.tile a c }

/-- One simulation step of the worker-allocation subsystem. -/
inductive Step : CWorld → CWorld → Prop
  | citizen (w : CWorld) (cid : Nat) : Step w (citizenSimulate w cid)
  | jobsModule (w : CWorld) (bid : Nat) : Step w (jobsModuleSimulate w bid)
  | disposeCitizen (w : CWorld) (cid : Nat) : Step w (citizenDispose w cid)
  | disposeBuilding (w : CWorld) (bid : Nat) : Step w (buildingDispose w bid)
  | spawn (w : CWorld) (cid age residence : Nat) (h : w.citizens cid = none) :
      Step w (spawnCitizen w cid age residence)
  | place (w : CWorld) (x y : Int) (bid : Nat) (b : CBuilding)
      (hjobs : ∀ jm, b.jobs = some jm → jm.workers = [])
      (hfresh : ∀ cid c, w.citizens cid = some c → c.workplace ≠ some bid)
      (hw : workersOf w bid = []) :
      Step w (placeBuilding w x y bid b)

/-- A world before any employment has happened: no citizen employed or
linked, all worker lists empty. -/
def InitialWorld (w : CWorld) : Prop :=
  (∀ cid c, w.citizens cid = some c → c.workplace = none ∧ c.state ≠ .employed) ∧
  (∀ bid, workersOf w bid = [])

inductive Reachable : CWorld → Prop
  | init (w : CWorld) (h : InitialWorld w) : Reachable w
  | step (w w' : CWorld) (h : Reachable w) (hs : Step w w') : Reachable w'

/-- The worker-bijection invariant: a citizen's workplace is non-null
iff they are employed; the link is bidirectional; worker lists are
duplicate-free. -/
def WorkerInv (w : CWorld) : Prop :=
  (∀ cid c, w.citizens cid = some c →
      ((c.state = .employed) ↔ c.workplace ≠ none) ∧
      (∀ bid, c.workplace = some bid → cid ∈ workersOf w bid)) ∧
  (∀ cid bid, cid ∈ workersOf w bid →
      ∃ c, w.citizens cid = some c ∧ c.workplace = some bid) ∧
  (∀ bid, (workersOf w bid).Nodup)

end CitizenSim

/-! ## Sample states used by concrete counterexamples and witnesses -/

/-- A fresh factory waste module (rate 4, textile waste, interval 3). -/
def sampleWaste : WasteModule :=
  { amount := 0, maxCapacity := 100, productionRate := 4,
    wasteType := some "textile-waste", lastProductionTick := 0,
    productionInterval := 3 }

/-- A level-1 factory with the default `requiredWorkers = 10`, no
workers, an empty queue and no recipes. -/
def sampleFactory : Factory :=
  { level := 1, maxLevel := 5, productionQueue := [], energyConsumption := 5,
    baseWasteProduction := 4, recipes := [], waste := sampleWaste,
    jobs := some ⟨[]⟩, requiredWorkers := 10, powerRequired := 5,
    status := "ok", roadAccess := true }

/-- A game world with an empty energy pool (nothing is powered). -/
def sampleWorld : GameWorld :=
  { energy := 0, playerLevel := 1, xp := 0, circularScore := 0,
    productionMode := .balanced, rm := ResourceManager.init,
    gp := GlobalPollution.init }

/-! ## C6 — unknown resource names -/

/-- C6 (counterexample): calling a ledger operation with a resource name
outside the closed resource set is **not** a fail-fast/panic-level
failure: on the concrete unknown name `"unobtainium"`, `addResource`
returns normally with `false` and leaves the ledger untouched (a console
warning is the only effect), i.e. it is a silent no-op at the ledger
level, contradicting the claim. -/
theorem unknown_resource_silent_noop :
    ResourceManager.init.addResource "unobtainium" 5 = (false, ResourceManager.init) ∧
    ResourceManager.init.removeResource "unobtainium" 5 = (false, ResourceManager.init) := by
  constructor <;> rfl

/-- C6 (amended): calling `addResource` or `removeResource` with a
resource name outside the closed, statically known resource set logs a
warning, returns `false`, and leaves the ledger completely unchanged; it
does not throw. -/
theorem unknown_resource_returns_false (rm : ResourceManager) (t : String) (a : ℚ)
    (h : rm.owned t = false) :
    rm.addResource t a = (false, rm) ∧ rm.removeResource t a = (false, rm) := by
  constructor <;>
    simp [ResourceManager.addResource, ResourceManager.removeResource, h]

/-- Witness for C6's amended theorem at the concrete unknown name
`"adamantium"`. -/
theorem unknown_resource_returns_false_witness :
    ResourceManager.init.addResource "adamantium" 3 = (false, ResourceManager.init) ∧
    ResourceManager.init.removeResource "adamantium" 3 = (false, ResourceManager.init) :=
  unknown_resource_returns_false ResourceManager.init "adamantium" 3 (by rfl)

/-! ## C3 — zero-worker production efficiency -/

/-- C3 (counterexample): the claim `requiredWorkers = 10 ∧
currentWorkers = 0 → productionEfficiency() = 0` *regardless of power*
is false: on the concrete unpowered factory, `productionEfficiency`
returns 1/2, because the power check short-circuits before the worker
check. -/
theorem productionEfficiency_claim_counterexample :
    sampleFactory.requiredWorkers = 10 ∧
    sampleFactory.currentWorkers = 0 ∧
    ¬ sampleFactory.productionEfficiency sampleWorld = 0 := by
  refine ⟨rfl, rfl, ?_⟩
  intro h
  have : (1 : ℚ)/2 = 0 := h
  norm_num at this

/-- C3 (amended): for a factory with `requiredWorkers = 10` and zero
current workers, `productionEfficiency` returns exactly 0 whenever the
factory is fully powered — for every building level and policy state —
and returns exactly 1/2 (the unpowered half-speed value) whenever it is
not fully powered. -/
theorem productionEfficiency_zero_workers (f : Factory) (w : GameWorld)
    (hreq : f.requiredWorkers = 10) (hcw : f.currentWorkers = 0) :
    f.productionEfficiency w =
      if isFullyPowered w.energy f.powerRequired then 0 else 1/2 := by
  unfold Factory.productionEfficiency
  rcases h : isFullyPowered w.energy f.powerRequired with _ | _ <;>
    simp [h, hcw, hreq]

/-- Witness for C3's amended theorem on the concrete unpowered sample
factory. -/
theorem productionEfficiency_zero_workers_witness :
    sampleFactory.productionEfficiency sampleWorld =
      if isFullyPowered sampleWorld.energy sampleFactory.powerRequired then 0
      else 1/2 :=
  productionEfficiency_zero_workers sampleFactory sampleWorld (by rfl) (by rfl)

/-! ## C4 — behaviour when not fully powered -/

/-- The textile `textile-basic` recipe (from `textileFactory.js`). -/
def sampleRecipe : Recipe :=
  { id := "textile-basic", name := "Basic Clothing",
    inputs := [("raw-fabric", 2)], outputs := [("clothing", 1)],
    waste := [("textile-waste", 1)], duration := 3, requiredLevel := 1 }

def sampleJob : Job := { recipe := sampleRecipe, progress := 0, totalTime := 3 }

/-- The sample factory with one queued in-progress job. -/
def queuedFactory : Factory :=
  { sampleFactory with productionQueue := [sampleJob], recipes := [sampleRecipe] }

/-- `#checkMissingResources` only touches the status field. -/
theorem checkMissingResources_queue (f : Factory) (w : GameWorld) :
    (f.checkMissingResources w).productionQueue = f.productionQueue := by
  unfold Factory.checkMissingResources
  repeat' split
  all_goals simp [apply_ite Factory.productionQueue]

/-- C4 (counterexample): on a concrete unpowered factory with one
queued job, `productionEfficiency` reports 1/2, yet a `simulate` tick
advances the job's progress by nothing at all (it stays 0, not 0.5):
the production block is skipped entirely when the building is not fully
powered. -/
theorem unpowered_progress_claim_counterexample :
    isFullyPowered sampleWorld.energy queuedFactory.powerRequired = false ∧
    queuedFactory.productionEfficiency sampleWorld = 1/2 ∧
    ((Factory.simulate queuedFactory sampleWorld 1).1.productionQueue.map
        (fun j => j.progress)) = [0] ∧
    ¬ ((Factory.simulate queuedFactory sampleWorld 1).1.productionQueue.map
        (fun j => j.progress)) = [1/2] := by
  refine ⟨rfl, rfl, by rfl, ?_⟩
  intro h
  rw [show ((Factory.simulate queuedFactory sampleWorld 1).1.productionQueue.map
      (fun j => j.progress)) = [0] from rfl] at h
  simp at h

/-- The inherited `Building.simulate` only writes the status field of
the factory record. -/
theorem simulateBase_fst (f : Factory) (w : GameWorld) :
    ∃ s, (f.simulateBase w).1 = { f with status := s } := by
  unfold Factory.simulateBase
  dsimp only
  repeat' split
  all_goals exact ⟨_, rfl⟩

/-- When the pool cannot cover the draw, `Building.simulate` leaves the
world untouched. -/
theorem simulateBase_snd_of_not_covered (f : Factory) (w : GameWorld)
    (h : ¬ (f.powerRequired > 0 ∧ w.energy ≥ f.powerRequired)) :
    (f.simulateBase w).2 = w := by
  unfold Factory.simulateBase
  simp only [if_neg h]

/-- C4 (amended): when a production-capable building's power module is
not fully powered, its production-efficiency getter reports 0.5
(half speed, not zero), but the `simulate` tick skips the production
block entirely, so no in-progress job's progress advances at all. -/
theorem unpowered_half_efficiency_no_progress (f : Factory) (w : GameWorld)
    (tick : Int) (hp : isFullyPowered w.energy f.powerRequired = false) :
    f.productionEfficiency w = 1/2 ∧
    (Factory.simulate f w tick).1.productionQueue = f.productionQueue := by
  have hp' := hp
  simp only [isFullyPowered, decide_eq_false_iff_not, not_or, not_le] at hp'
  obtain ⟨h0, hlt⟩ := hp'
  constructor
  · unfold Factory.productionEfficiency
    simp [hp]
  · have hcond : ¬ (f.powerRequired > 0 ∧ w.energy ≥ f.powerRequired) := by
      rintro ⟨-, hge⟩
      exact absurd hge (not_le.mpr hlt)
    obtain ⟨s, hs⟩ := simulateBase_fst f w
    have hw2 := simulateBase_snd_of_not_covered f w hcond
    unfold Factory.simulate Factory.productionPhase
    simp only [hs, hw2]
    split <;> simp [hp, checkMissingResources_queue]

/-- Witness for C4's amended theorem on the concrete unpowered sample
factory with one queued job. -/
theorem unpowered_half_efficiency_no_progress_witness :
    queuedFactory.productionEfficiency sampleWorld = 1/2 ∧
    (Factory.simulate queuedFactory sampleWorld 1).1.productionQueue =
      queuedFactory.productionQueue :=
  unpowered_half_efficiency_no_progress queuedFactory sampleWorld 1 (by rfl)

/-! ## C5 — the ≥ 100 pollution crisis event -/

/-- A pool pinned at the maximum: every entry 100, mean 100. -/
def pollutedPool : GlobalPollution :=
  { pollution := fun _ => 100, totalPollution := 100, lastPenaltyTick := 0,
    penCircularScore := false, penXpReduction := false,
    penMarketPrices := false, penEventTriggered := false }

def sampleMult : GSMult := { circularScoreMultiplier := 1, xpMultiplier := 1 }

set_option maxHeartbeats 1600000 in
/-- `applyPenalties` fires the crisis event exactly when the penalty
check interval has elapsed and the mean is at least 100. -/
theorem applyPenalties_fired (g : GlobalPollution) (gs : GSMult) (t : Int) :
    (g.applyPenalties gs t).2.2 =
      (decide (penaltyCheckInterval ≤ t - g.lastPenaltyTick) &&
       decide ((100 : ℚ) ≤ g.totalPollution)) := by
  unfold GlobalPollution.applyPenalties
  split
  · next h => simp [not_le.mpr h]
  · next h =>
    have h10 : penaltyCheckInterval ≤ t - g.lastPenaltyTick := not_lt.mp h
    dsimp only
    by_cases h100 : (100 : ℚ) ≤ g.totalPollution
    · rw [if_pos (show g.totalPollution ≥ 50 from le_trans (by norm_num) h100)]
      dsimp only
      rw [if_pos (show g.totalPollution ≥ 75 from le_trans (by norm_num) h100)]
      dsimp only
      rw [if_pos (show g.totalPollution ≥ 90 from le_trans (by norm_num) h100)]
      dsimp only
      rw [if_pos (show g.totalPollution ≥ 100 from h100)]
      simp [h10, h100]
    · split <;> dsimp only <;> split <;> dsimp only <;> split <;> dsimp only <;>
        simp [h10, h100]

set_option maxHeartbeats 1600000 in
/-- `applyPenalties` never changes the pollution levels, and stamps the
tick only when the interval had elapsed. -/
theorem applyPenalties_keeps (g : GlobalPollution) (gs : GSMult) (t : Int) :
    (g.applyPenalties gs t).1.totalPollution = g.totalPollution ∧
    (g.applyPenalties gs t).1.lastPenaltyTick =
      (if t - g.lastPenaltyTick < penaltyCheckInterval then g.lastPenaltyTick else t) := by
  unfold GlobalPollution.applyPenalties
  split
  · next h => simp [h]
  · next h =>
    dsimp only
    split <;> dsimp only <;> split <;> dsimp only <;> split <;> dsimp only <;>
      split <;> simp [h]

/-- C5 (counterexample): with every pollution entry pinned at 100, the
crisis event fires at tick 10, the mean never drops below 100, and the
event fires *again* at tick 20 — there is no one-shot latch waiting for
the mean to fall below 100 and return. -/
theorem pollution_event_refires_counterexample :
    (pollutedPool.applyPenalties sampleMult 10).2.2 = true ∧
    (pollutedPool.applyPenalties sampleMult 10).1.totalPollution = 100 ∧
    (((pollutedPool.applyPenalties sampleMult 10).1.applyPenalties
        (pollutedPool.applyPenalties sampleMult 10).2.1 20).2.2 = true) := by
  refine ⟨by rfl, by rfl, by rfl⟩

/-- C5 (amended): when the pollution mean reaches 100 and the 10-tick
penalty check interval has elapsed, the crisis event fires; re-querying
at the same tick does not re-fire it; but it fires again at the very
next penalty check (10 ticks later) while the mean stays at ≥ 100,
without the mean having to drop below 100 first. -/
theorem pollution_event_per_interval (g : GlobalPollution) (gs : GSMult)
    (t : Int) (hint : penaltyCheckInterval ≤ t - g.lastPenaltyTick)
    (htot : (100 : ℚ) ≤ g.totalPollution) :
    (g.applyPenalties gs t).2.2 = true ∧
    ((g.applyPenalties gs t).1.applyPenalties
        (g.applyPenalties gs t).2.1 t).2.2 = false ∧
    ((g.applyPenalties gs t).1.applyPenalties
        (g.applyPenalties gs t).2.1 (t + penaltyCheckInterval)).2.2 = true := by
  have hkeep := applyPenalties_keeps g gs t
  have hlast : (g.applyPenalties gs t).1.lastPenaltyTick = t := by
    rw [hkeep.2, if_neg (not_lt.mpr hint)]
  refine ⟨?_, ?_, ?_⟩
  · rw [applyPenalties_fired]
    simp [hint, htot]
  · rw [applyPenalties_fired, hlast]
    simp [penaltyCheckInterval]
  · rw [applyPenalties_fired, hlast, hkeep.1]
    simp [htot, penaltyCheckInterval]

/-- Witness for C5's amended theorem on the concrete maxed-out pool. -/
theorem pollution_event_per_interval_witness :
    (pollutedPool.applyPenalties sampleMult 10).2.2 = true ∧
    ((pollutedPool.applyPenalties sampleMult 10).1.applyPenalties
        (pollutedPool.applyPenalties sampleMult 10).2.1 10).2.2 = false ∧
    ((pollutedPool.applyPenalties sampleMult 10).1.applyPenalties
        (pollutedPool.applyPenalties sampleMult 10).2.1
        (10 + penaltyCheckInterval)).2.2 = true :=
  pollution_event_per_interval pollutedPool sampleMult 10 (by decide) (by norm_num [pollutedPool])

/-! ## C10 — the pollution pool is a closed four-type map -/

/-- Well-formedness of the pollution pool: all four entries in
`[0, 100]` and `totalPollution` equal to their mean. -/
def PollWf (g : GlobalPollution) : Prop :=
  (∀ k, 0 ≤ g.pollution k ∧ g.pollution k ≤ 100) ∧
  g.totalPollution = g.sumPollution / 4

/-- Re-deriving the total collapses the `min` once all entries are
bounded by 100. -/
theorem updateTotal_wf (g : GlobalPollution)
    (h : ∀ k, 0 ≤ g.pollution k ∧ g.pollution k ≤ 100) :
    PollWf g.updateTotalPollution := by
  have hsum : g.sumPollution / 4 ≤ 100 := by
    have ht := (h .textile).2
    have he := (h .ewaste).2
    have hs := (h .scrap).2
    have ho := (h .organic).2
    unfold GlobalPollution.sumPollution
    linarith
  refine ⟨fun k => h k, ?_⟩
  unfold GlobalPollution.updateTotalPollution
  simp only [min_eq_right hsum]
  rfl

/-- C10: the global pollution pool is a closed map over exactly the four
waste types; `addWaste`/`removeWaste` with any name outside the four —
in particular `plastic-waste` — leave the state completely unchanged;
under nonnegative amounts the entries stay in `[0, 100]` through
`addWaste`, `removeWaste` and `decay`; and `totalPollution` always
equals the mean of the four entries. -/
theorem pollution_pool_closed_invariant (g : GlobalPollution) (t : String)
    (a : ℚ) (hwf : PollWf g) (ha : 0 ≤ a) :
    (pollKey t = none → g.addWaste t a = g ∧ g.removeWaste t a = g) ∧
    (g.addWaste "plastic-waste" a = g ∧ g.removeWaste "plastic-waste" a = g) ∧
    PollWf (g.addWaste t a) ∧ PollWf (g.removeWaste t a) ∧ PollWf g.decay := by
  obtain ⟨hrange, htotal⟩ := hwf
  have hplastic : pollKey "plastic-waste" = none := by rfl
  have hadd : ∀ t', PollWf (g.addWaste t' a) := by
    intro t'
    unfold GlobalPollution.addWaste
    cases hk : pollKey t' with
    | none => exact ⟨hrange, htotal⟩
    | some k =>
      apply updateTotal_wf
      intro k'
      simp only [setPoll]
      split
      · constructor
        · have := (hrange k).1
          positivity
        · exact min_le_left _ _
      · exact hrange k'
  have hrem : ∀ t', PollWf (g.removeWaste t' a) := by
    intro t'
    unfold GlobalPollution.removeWaste
    cases hk : pollKey t' with
    | none => exact ⟨hrange, htotal⟩
    | some k =>
      apply updateTotal_wf
      intro k'
      simp only [setPoll]
      split
      · refine ⟨le_max_left _ _, ?_⟩
        have h1 : g.pollution k - a ≤ 100 := by
          have := (hrange k).2
          linarith
        exact max_le (by norm_num) h1
      · exact hrange k'
  refine ⟨?_, ?_, hadd t, hrem t, ?_⟩
  · intro hnone
    constructor
    · unfold GlobalPollution.addWaste
      rw [hnone]
    · unfold GlobalPollution.removeWaste
      rw [hnone]
  · constructor
    · unfold GlobalPollution.addWaste
      rw [hplastic]
    · unfold GlobalPollution.removeWaste
      rw [hplastic]
  · apply updateTotal_wf
    intro k
    simp only []
    refine ⟨le_max_left _ _, ?_⟩
    have h1 : g.pollution k - 1/10 ≤ 100 := by
      have := (hrange k).2
      linarith
    exact max_le (by norm_num) h1

/-- Witness for C10 at a concrete well-formed pool (the freshly
constructed zero pool) with amount 7. -/
theorem pollution_pool_closed_invariant_witness :
    (pollKey "e-waste" = none →
      GlobalPollution.init.addWaste "e-waste" 7 = GlobalPollution.init ∧
      GlobalPollution.init.removeWaste "e-waste" 7 = GlobalPollution.init) ∧
    (GlobalPollution.init.addWaste "plastic-waste" 7 = GlobalPollution.init ∧
      GlobalPollution.init.removeWaste "plastic-waste" 7 = GlobalPollution.init) ∧
    PollWf (GlobalPollution.init.addWaste "e-waste" 7) ∧
    PollWf (GlobalPollution.init.removeWaste "e-waste" 7) ∧
    PollWf GlobalPollution.init.decay :=
  pollution_pool_closed_invariant GlobalPollution.init "e-waste" 7
    ⟨fun k => by constructor <;> norm_num [GlobalPollution.init], by norm_num [GlobalPollution.init, GlobalPollution.sumPollution]⟩
    (by norm_num)

/-! ## C1 — `consumeResources` is all-or-nothing -/

/-- `removeResource` on a sufficiently stocked owned key: subtract that
key, leave everything else alone. -/
theorem removeResource_sufficient (rm : ResourceManager) (t : String) (a : ℚ)
    (ho : rm.owned t = true) (hge : a ≤ rm.amount t) :
    (rm.removeResource t a).2.amount = setKey rm.amount t (rm.amount t - a) ∧
    (rm.removeResource t a).2.owned = rm.owned ∧
    (rm.removeResource t a).2.limit = rm.limit := by
  unfold ResourceManager.removeResource
  simp [ho, hge]

/-- The removal fold of `consumeResources`, once `hasResources` has
succeeded on duplicate-free owned keys: every named amount drops by its
requirement, nothing else moves. -/
theorem consume_fold_spec (requirements : List (String × ℚ)) :
    ∀ rm : ResourceManager,
    (requirements.map Prod.fst).Nodup →
    (∀ p ∈ requirements, rm.owned p.1 = true) →
    rm.hasResources requirements = true →
    (∀ p ∈ requirements,
      (requirements.foldl (fun s p => (s.removeResource p.1 p.2).2) rm).amount p.1 =
        rm.amount p.1 - p.2) ∧
    (∀ t, t ∉ requirements.map Prod.fst →
      (requirements.foldl (fun s p => (s.removeResource p.1 p.2).2) rm).amount t =
        rm.amount t) ∧
    (requirements.foldl (fun s p => (s.removeResource p.1 p.2).2) rm).owned = rm.owned ∧
    (requirements.foldl (fun s p => (s.removeResource p.1 p.2).2) rm).limit = rm.limit := by
  induction requirements with
  | nil => intro rm _ _ _; exact ⟨by simp, by simp, rfl, rfl⟩
  | cons p rest ih =>
    intro rm hk ho hh
    simp only [List.map_cons, List.nodup_cons] at hk
    have hop : rm.owned p.1 = true := ho p (List.mem_cons_self p rest)
    have hh' := hh
    unfold ResourceManager.hasResources at hh'
    rw [List.all_cons, Bool.and_eq_true] at hh'
    have hhead : p.2 ≤ rm.getResource p.1 := by
      simpa [not_lt] using hh'.1
    have hge : p.2 ≤ rm.amount p.1 := by
      rwa [ResourceManager.getResource, if_pos hop] at hhead
    obtain ⟨ham, hown, hlim⟩ := removeResource_sufficient rm p.1 p.2 hop hge
    set rm1 := (rm.removeResource p.1 p.2).2 with hrm1
    have hpnotin : p.1 ∉ rest.map Prod.fst := hk.1
    have hamq : ∀ q : String × ℚ, q ∈ rest → rm1.amount q.1 = rm.amount q.1 := by
      intro q hq
      have hne : q.1 ≠ p.1 := by
        intro hEq
        exact hpnotin (hEq ▸ List.mem_map_of_mem Prod.fst hq)
      rw [ham, setKey, if_neg hne]
    have ho1 : ∀ q ∈ rest, rm1.owned q.1 = true := by
      intro q hq
      rw [hown]
      exact ho q (List.mem_cons_of_mem p hq)
    have hh1 : rm1.hasResources rest = true := by
      unfold ResourceManager.hasResources
      rw [List.all_eq_true]
      intro q hq
      have hgr : rm1.getResource q.1 = rm.getResource q.1 := by
        unfold ResourceManager.getResource
        rw [hown, hamq q hq]
      have hqr := List.all_eq_true.mp hh'.2 q hq
      simpa [hgr] using hqr
    obtain ⟨ih1, ih2, ih3, ih4⟩ := ih rm1 hk.2 ho1 hh1
    refine ⟨?_, ?_, ?_, ?_⟩
    · intro q hq
      rcases List.mem_cons.mp hq with hq | hq
      · rw [List.foldl_cons, ← hrm1, hq]
        rw [ih2 p.1 hpnotin, ham, setKey, if_pos rfl]
      · rw [List.foldl_cons, ← hrm1, ih1 q hq, hamq q hq]
    · intro t ht
      simp only [List.map_cons, List.mem_cons, not_or] at ht
      rw [List.foldl_cons, ← hrm1, ih2 t ht.2, ham, setKey, if_neg ht.1]
    · rw [List.foldl_cons, ← hrm1, ih3, hown]
    · rw [List.foldl_cons, ← hrm1, ih4, hlim]

/-- C1: `consumeResources(requirements)` is all-or-nothing.  If it
returns `false`, the ledger is returned unchanged; if it returns `true`,
every resource named in the (duplicate-free, known-key) requirements map
is decreased by exactly its required quantity and no other resource
changes (ownership and limits are untouched as well). -/
theorem consumeResources_all_or_nothing (rm : ResourceManager)
    (requirements : List (String × ℚ))
    (hk : (requirements.map Prod.fst).Nodup)
    (ho : ∀ p ∈ requirements, rm.owned p.1 = true) :
    ((rm.consumeResources requirements).1 = false →
      (rm.consumeResources requirements).2 = rm) ∧
    ((rm.consumeResources requirements).1 = true →
      (∀ p ∈ requirements,
        (rm.consumeResources requirements).2.getResource p.1 =
          rm.getResource p.1 - p.2) ∧
      (∀ t, t ∉ requirements.map Prod.fst →
        (rm.consumeResources requirements).2.getResource t = rm.getResource t) ∧
      (rm.consumeResources requirements).2.owned = rm.owned ∧
      (rm.consumeResources requirements).2.limit = rm.limit) := by
  cases hh : rm.hasResources requirements with
  | false =>
    have hcr : rm.consumeResources requirements = (false, rm) := by
      unfold ResourceManager.consumeResources
      rw [hh]
      simp
    rw [hcr]
    simp
  | true =>
    have hcr : rm.consumeResources requirements =
        (true, requirements.foldl (fun s p => (s.removeResource p.1 p.2).2) rm) := by
      unfold ResourceManager.consumeResources
      rw [hh]
      simp
    obtain ⟨h1, h2, h3, h4⟩ := consume_fold_spec requirements rm hk ho hh
    rw [hcr]
    refine ⟨by intro hcontra; simp at hcontra, fun _ => ⟨?_, ?_, h3, h4⟩⟩
    · intro p hp
      unfold ResourceManager.getResource
      rw [h3, h1 p hp]
      simp [ho p hp]
    · intro t ht
      unfold ResourceManager.getResource
      rw [h3, h2 t ht]

/-- Witness for C1 on the freshly constructed ledger and the
`textile-basic` input map `{raw-fabric: 2}`. -/
theorem consumeResources_all_or_nothing_witness :
    ((ResourceManager.init.consumeResources [("raw-fabric", 2)]).1 = false →
      (ResourceManager.init.consumeResources [("raw-fabric", 2)]).2 = ResourceManager.init) ∧
    ((ResourceManager.init.consumeResources [("raw-fabric", 2)]).1 = true →
      (∀ p ∈ [(("raw-fabric" : String), (2 : ℚ))],
        (ResourceManager.init.consumeResources [("raw-fabric", 2)]).2.getResource p.1 =
          ResourceManager.init.getResource p.1 - p.2) ∧
      (∀ t, t ∉ [(("raw-fabric" : String), (2 : ℚ))].map Prod.fst →
        (ResourceManager.init.consumeResources [("raw-fabric", 2)]).2.getResource t =
          ResourceManager.init.getResource t) ∧
      (ResourceManager.init.consumeResources [("raw-fabric", 2)]).2.owned =
        ResourceManager.init.owned ∧
      (ResourceManager.init.consumeResources [("raw-fabric", 2)]).2.limit =
        ResourceManager.init.limit) :=
  consumeResources_all_or_nothing ResourceManager.init [("raw-fabric", 2)]
    (by simp) (by intro p hp; simp at hp; subst hp; rfl)

/-! ## C7 — recipe gating is only by building level -/

/-- A recipe whose `requiredLevel` gate is closed is never producible. -/
theorem canProduce_level_gate (f : Factory) (r : Recipe)
    (hc : f.canProduce r = true) :
    r.requiredLevel = 0 ∨ r.requiredLevel ≤ f.level := by
  by_cases h0 : r.requiredLevel = 0
  · exact Or.inl h0
  · right
    by_contra hlt
    unfold Factory.canProduce at hc
    rw [if_pos ⟨h0, not_le.mp hlt⟩] at hc
    exact Bool.false_ne_true hc

/-- When both guards hold, `addProduction` appends exactly one job for
the given recipe and consumes its inputs. -/
theorem addProduction_spec (f : Factory) (w : GameWorld) (r : Recipe)
    (hcp : f.canProduce r = true) (hhr : w.rm.hasResources r.inputs = true) :
    (f.addProduction w r).2.1 =
      { f with productionQueue := f.productionQueue ++
          [{ recipe := r, progress := 0, totalTime := r.duration }] } := by
  unfold Factory.addProduction
  rw [hcp, hhr]
  simp

/-- Queue-refill gating: any job present after the refill loop was
either already queued or has a recipe open at the factory's own level. -/
theorem startAutoProductionAux_gating (fuel : Nat) :
    ∀ (f : Factory) (w : GameWorld) (j : Job),
    j ∈ (Factory.startAutoProductionAux fuel f w).1.productionQueue →
    j ∈ f.productionQueue ∨ j.recipe.requiredLevel = 0 ∨
      j.recipe.requiredLevel ≤ f.level := by
  induction fuel with
  | zero => intro f w j hj; exact Or.inl hj
  | succ n ih =>
    intro f w j hj
    unfold Factory.startAutoProductionAux at hj
    by_cases hq : f.productionQueue.length < 5
    · rw [if_pos hq] at hj
      dsimp only at hj
      cases hfind : (stableSort (fun a b => recipeCompare f.level a b ≤ 0) f.recipes).find?
          (fun r => f.canProduce r && w.rm.hasResources r.inputs) with
      | none =>
        rw [hfind] at hj
        dsimp only at hj
        exact Or.inl hj
      | some r =>
        rw [hfind] at hj
        dsimp only at hj
        have hpred := List.find?_some hfind
        rw [Bool.and_eq_true] at hpred
        have hadd := addProduction_spec f w r hpred.1 hpred.2
        rw [hadd] at hj
        rcases ih _ _ j hj with hmem | hlevel
        · simp only [List.mem_append, List.mem_singleton] at hmem
          rcases hmem with hmem | hmem
          · exact Or.inl hmem
          · subst hmem
            exact Or.inr (canProduce_level_gate f r hpred.1)
        · exact Or.inr hlevel
    · rw [if_neg hq] at hj
      exact Or.inl hj

/-- C7: recipe gating is only by building level — with the factory's
own level below 2, `startAutomaticProduction` never selects a recipe
with `requiredLevel = 2` (for any game state, in particular for any
player/account level carried by the world): every queued job either was
queued before or has `requiredLevel ≠ 2`. -/
theorem recipe_gating_by_building_level (f : Factory) (w : GameWorld) (j : Job)
    (hlvl : f.level < 2)
    (hj : j ∈ (f.startAutomaticProduction w).1.productionQueue) :
    j ∈ f.productionQueue ∨ j.recipe.requiredLevel ≠ 2 := by
  rcases startAutoProductionAux_gating 5 f w j hj with hmem | h0 | hle
  · exact Or.inl hmem
  · exact Or.inr (by omega)
  · exact Or.inr (by omega)

/-- The `textile-advanced` recipe (`requiredLevel = 2`). -/
def advancedRecipe : Recipe :=
  { id := "textile-advanced", name := "Advanced Clothing",
    inputs := [("raw-fabric", 3), ("raw-plastic", 1)],
    outputs := [("clothing", 2)], waste := [("textile-waste", 1)],
    duration := 4, requiredLevel := 2 }

/-- A level-1 textile factory holding both the level-1 and the level-2
recipe, with four jobs already queued (one refill slot left). -/
def gatingFactory : Factory :=
  { sampleFactory with recipes := [advancedRecipe, sampleRecipe],
                       productionQueue := List.replicate 4 sampleJob }

/-- Witness for C7: on the concrete level-1 factory the refill loop
fills the last queue slot with a `textile-basic` job, and any job of the
resulting queue is gated away from `requiredLevel = 2`. -/
theorem recipe_gating_by_building_level_witness :
    ({ recipe := sampleRecipe, progress := 0, totalTime := 3 } : Job) ∈
      gatingFactory.productionQueue ∨
    ({ recipe := sampleRecipe, progress := 0, totalTime := 3 } : Job).recipe.requiredLevel ≠ 2 :=
  recipe_gating_by_building_level gatingFactory sampleWorld _ (by decide)
    (by
      have hqe : (gatingFactory.startAutomaticProduction sampleWorld).1.productionQueue =
          List.replicate 4 sampleJob ++
            [{ recipe := sampleRecipe, progress := 0, totalTime := 3 }] := by
        rfl
      rw [hqe]
      simp [sampleJob])

/-! ## C8 — auto-recycling arithmetic -/

/-- `addXP` never touches the ledger. -/
theorem addXP_rm (w : GameWorld) (a : ℚ) : (w.addXP a).rm = w.rm := by
  unfold GameWorld.addXP
  dsimp only
  split <;> rfl

/-- `updateCircularScore` never touches the ledger. -/
theorem updateCircularScore_rm (w : GameWorld) (a : ℚ) :
    (w.updateCircularScore a).rm = w.rm := rfl

/-- C8: a level-1 recycling center (efficiency 0.5, auto rate 2/tick)
facing 10 units of global e-waste (and no other processable global or
local waste) leaves e-waste at 8 and adds exactly 1.0
recycled-electronics in one `processAutoRecycling` pass; and the
boosted efficiency of every recycling center is clamped to at most 1. -/
theorem auto_recycling_arithmetic (rc : RecyclingCenter) (w : GameWorld)
    (hlvl : rc.level = 1) (hboost : rc.boostRemaining = 0)
    (hpow : isFullyPowered w.energy rc.powerRequired = true)
    (hew : w.rm.getResource "e-waste" = 10)
    (htw : w.rm.getResource "textile-waste" = 0)
    (hsc : w.rm.getResource "scrap-metal" = 0)
    (hpl : w.rm.getResource "plastic-waste" = 0)
    (hoew : w.rm.owned "e-waste" = true)
    (hore : w.rm.owned "recycled-electronics" = true)
    (hlre : w.rm.limit "recycled-electronics" = 0) :
    (rc.processAutoRecycling w []).1.rm.getResource "e-waste" = 8 ∧
    (rc.processAutoRecycling w []).1.rm.getResource "recycled-electronics" =
      w.rm.getResource "recycled-electronics" + 1 ∧
    rc.efficiency = 1/2 ∧
    (∀ rc' : RecyclingCenter, rc'.efficiency ≤ 1) := by
  have hclamp : ∀ rc' : RecyclingCenter, rc'.efficiency ≤ 1 := by
    intro rc'
    unfold RecyclingCenter.efficiency
    exact min_le_left _ _
  have heff : rc.efficiency = 1/2 := by
    unfold RecyclingCenter.efficiency efficiencyByLevel
    rw [hlvl, hboost]
    norm_num
  have hrate : rc.autoRecyclingRate = 2 := by
    unfold RecyclingCenter.autoRecyclingRate
    rw [hlvl]
    norm_num
  have hamew : w.rm.amount "e-waste" = 10 := by
    rwa [ResourceManager.getResource, if_pos hoew] at hew
  -- the e-waste step of the global pass
  have hrm1 : (w.rm.removeResource "e-waste" 2).2.amount =
      setKey w.rm.amount "e-waste" (w.rm.amount "e-waste" - 2) ∧
      (w.rm.removeResource "e-waste" 2).2.owned = w.rm.owned ∧
      (w.rm.removeResource "e-waste" 2).2.limit = w.rm.limit :=
    removeResource_sufficient w.rm "e-waste" 2 hoew (by rw [hamew]; norm_num)
  set rm1 := (w.rm.removeResource "e-waste" 2).2 with hrm1def
  have hadd : (rm1.addResource "recycled-electronics" (2 * (1/2))).2.amount =
      setKey rm1.amount "recycled-electronics"
        (rm1.amount "recycled-electronics" + 2 * (1/2)) ∧
      (rm1.addResource "recycled-electronics" (2 * (1/2))).2.owned = rm1.owned ∧
      (rm1.addResource "recycled-electronics" (2 * (1/2))).2.limit = rm1.limit := by
    unfold ResourceManager.addResource
    have ho1 : rm1.owned "recycled-electronics" = true := by rw [hrm1.2.1]; exact hore
    have hl1 : rm1.limit "recycled-electronics" = 0 := by rw [hrm1.2.2]; exact hlre
    rw [if_neg (show ¬ (rm1.owned "recycled-electronics" = false) by rw [ho1]; simp)]
    dsimp only
    rw [if_neg (show ¬ (rm1.limit "recycled-electronics" > 0 ∧
        rm1.amount "recycled-electronics" + 2 * (1/2) > rm1.limit "recycled-electronics") by
      rintro ⟨hc, -⟩
      rw [hl1] at hc
      exact absurd hc (by norm_num))]
    exact ⟨rfl, rfl, rfl⟩
  set rm2 := (rm1.addResource "recycled-electronics" (2 * (1/2))).2 with hrm2def
  have hewm : rm2.getResource "e-waste" = 8 := by
    unfold ResourceManager.getResource
    rw [hadd.2.1, hrm1.2.1, if_pos hoew, hadd.1, hrm1.1]
    simp only [setKey]
    simp
    rw [hamew]
    norm_num
  have hrem : rm2.getResource "recycled-electronics" =
      w.rm.getResource "recycled-electronics" + 1 := by
    unfold ResourceManager.getResource
    rw [hadd.2.1, hrm1.2.1, if_pos hore, if_pos hore, hadd.1, hrm1.1]
    simp only [setKey]
    simp
  have hscm' : rm2.getResource "scrap-metal" = 0 := by
    unfold ResourceManager.getResource at hsc ⊢
    rw [hadd.2.1, hrm1.2.1, hadd.1, hrm1.1]
    simp only [setKey]
    simpa using hsc
  have hplm' : rm2.getResource "plastic-waste" = 0 := by
    unfold ResourceManager.getResource at hpl ⊢
    rw [hadd.2.1, hrm1.2.1, hadd.1, hrm1.1]
    simp only [setKey]
    simpa using hpl
  -- evaluate processAutoRecycling on the empty city
  unfold RecyclingCenter.processAutoRecycling
  rw [hpow]
  simp only [Bool.true_eq_false, if_false]
  rw [heff, hrate]
  simp only [wasteRecipes, List.foldl_cons, List.foldl_nil]
  try dsimp only
  rw [htw]
  simp only [gt_iff_lt, lt_self_iff_false, if_false]
  rw [hew]
  rw [if_pos (by norm_num : (0 : ℚ) < 10)]
  try dsimp only
  rw [show min (10 : ℚ) 2 = 2 from by norm_num]
  rw [← hrm1def, ← hrm2def]
  simp only [hscm', hplm', lt_self_iff_false, if_false, List.foldl_nil]
  try dsimp only
  rw [if_pos (by norm_num : (0 : ℚ) + 2 * (1/2) > 0)]
  try dsimp only
  rw [updateCircularScore_rm, addXP_rm]
  try dsimp only
  exact ⟨hewm, hrem, trivial, hclamp⟩

/-- A level-1 recycling center as constructed by the source. -/
def sampleRecycler : RecyclingCenter :=
  { level := 1, maxLevel := 3, energyConsumption := 8, boostRemaining := 0,
    autoRecycling := true, powerRequired := 8, status := "ok", roadAccess := true }

/-- A powered world whose ledger holds exactly 10 e-waste. -/
def recyclingWorld : GameWorld :=
  { sampleWorld with
      energy := 16,
      rm := { ResourceManager.init with
                amount := fun t => if t = "e-waste" then 10 else 0 } }

/-- Witness for C8 on the concrete level-1 recycling center and the
10-e-waste world. -/
theorem auto_recycling_arithmetic_witness :
    (sampleRecycler.processAutoRecycling recyclingWorld []).1.rm.getResource "e-waste" = 8 ∧
    (sampleRecycler.processAutoRecycling recyclingWorld []).1.rm.getResource "recycled-electronics" =
      recyclingWorld.rm.getResource "recycled-electronics" + 1 ∧
    sampleRecycler.efficiency = 1/2 ∧
    (∀ rc' : RecyclingCenter, rc'.efficiency ≤ 1) :=
  auto_recycling_arithmetic sampleRecycler recyclingWorld rfl rfl (by decide)
    (by rfl) (by rfl) (by rfl) (by rfl) (by rfl) (by rfl) (by rfl)

/-! ## C9 — the waste efficiency penalty step function -/

/-- The queue survivors of the production loop: every job advances by
`eff`; jobs reaching their total time are removed. -/
theorem advanceJobs_queue (f : Factory) (eff : ℚ) (q : List Job)
    (w : GameWorld) :
    (f.advanceJobs eff q w).1 =
      (q.map fun j => { j with progress := j.progress + eff }).filter
        (fun j => decide (j.progress < j.totalTime)) := by
  induction q generalizing w with
  | nil => rfl
  | cons j rest ih =>
    unfold Factory.advanceJobs
    dsimp only
    rw [ih]
    split
    · next hdone =>
      simp only [List.map_cons, List.filter_cons]
      rw [if_neg (by simpa [not_lt] using hdone)]
    · next hlive =>
      simp only [List.map_cons, List.filter_cons]
      rw [if_pos (by simpa [not_le] using hlive)]

/-- A frozen waste module (its production guard false) is unchanged by
`WasteModule.simulate`. -/
theorem wasteSimulate_frozen (m : WasteModule) (pl : Nat)
    (gp : GlobalPollution) (tick : Int)
    (h : ¬ (m.productionRate > 0 ∧ m.wasteType ≠ none ∧
        tick - m.lastProductionTick ≥ m.productionInterval)) :
    m.simulate pl gp tick = (m, gp) := by
  unfold WasteModule.simulate
  split <;> rfl

/-- `Building.simulate`'s world effect is exactly the conditional energy
draw. -/
theorem simulateBase_snd (f : Factory) (w : GameWorld) :
    (f.simulateBase w).2 =
      if f.powerRequired > 0 ∧ w.energy ≥ f.powerRequired then
        (w.consumeEnergy f.powerRequired).2
      else w := rfl

/-- The energy draw leaves every non-energy field of the world alone. -/
theorem simulateBase_world_fields (f : Factory) (w : GameWorld) :
    (f.simulateBase w).2.playerLevel = w.playerLevel ∧
    (f.simulateBase w).2.rm = w.rm ∧
    (f.simulateBase w).2.gp = w.gp ∧
    (f.simulateBase w).2.productionMode = w.productionMode := by
  rw [simulateBase_snd]
  unfold GameWorld.consumeEnergy
  split
  · split <;> exact ⟨rfl, rfl, rfl, rfl⟩
  · exact ⟨rfl, rfl, rfl, rfl⟩

/-- The refill loop only appends to the production queue. -/
theorem startAutoProductionAux_append (fuel : Nat) :
    ∀ (f : Factory) (w : GameWorld), ∃ t,
      (Factory.startAutoProductionAux fuel f w).1.productionQueue =
        f.productionQueue ++ t := by
  induction fuel with
  | zero => intro f w; exact ⟨[], by simp [Factory.startAutoProductionAux]⟩
  | succ n ih =>
    intro f w
    unfold Factory.startAutoProductionAux
    by_cases hq : f.productionQueue.length < 5
    · rw [if_pos hq]
      dsimp only
      cases hfind : (stableSort (fun a b => recipeCompare f.level a b ≤ 0) f.recipes).find?
          (fun r => f.canProduce r && w.rm.hasResources r.inputs) with
      | none => exact ⟨[], by simp⟩
      | some r =>
        dsimp only
        have hpred := List.find?_some hfind
        rw [Bool.and_eq_true] at hpred
        have hadd := addProduction_spec f w r hpred.1 hpred.2
        rw [hadd]
        obtain ⟨t, ht⟩ := ih { f with productionQueue := f.productionQueue ++
          [{ recipe := r, progress := 0, totalTime := r.duration }] } (f.addProduction w r).2.2
        refine ⟨[{ recipe := r, progress := 0, totalTime := r.duration }] ++ t, ?_⟩
        rw [ht]
        simp
    · rw [if_neg hq]
      exact ⟨[], by simp⟩

/-- The production phase, when powered with a positive adjusted
efficiency, advances every queued job by `productionEfficiency ×
wastePenalty`, removes finished jobs, and only appends refills. -/
theorem productionPhase_queue (f : Factory) (w : GameWorld) (pen : ℚ)
    (hp : isFullyPowered w.energy f.powerRequired = true)
    (hadj : 0 < f.productionEfficiency w * pen) :
    ∃ tail, (f.productionPhase w pen).1.productionQueue =
      ((f.productionQueue.map fun j =>
          { j with progress := j.progress + f.productionEfficiency w * pen }).filter
        fun j => decide (j.progress < j.totalTime)) ++ tail := by
  have hadj' : f.productionEfficiency w * pen > 0 := hadj
  unfold Factory.productionPhase
  rw [if_pos hp]
  dsimp only
  by_cases hq : f.productionQueue.length > 0
  · rw [if_pos (show f.productionQueue.length > 0 ∧
        f.productionEfficiency w * pen > 0 from ⟨hq, hadj'⟩)]
    dsimp only
    rw [if_pos hadj']
    obtain ⟨t, ht⟩ := startAutoProductionAux_append 5
      { f with productionQueue :=
          (f.advanceJobs (f.productionEfficiency w * pen) f.productionQueue w).1 }
      (f.advanceJobs (f.productionEfficiency w * pen) f.productionQueue w).2
    refine ⟨t, ?_⟩
    rw [checkMissingResources_queue]
    unfold Factory.startAutomaticProduction
    rw [ht]
    dsimp only
    rw [advanceJobs_queue]
  · rw [if_neg (show ¬ (f.productionQueue.length > 0 ∧
        f.productionEfficiency w * pen > 0) from fun hc => hq hc.1)]
    dsimp only
    rw [if_pos hadj']
    obtain ⟨t, ht⟩ := startAutoProductionAux_append 5 f w
    have hqe : f.productionQueue = [] :=
      List.length_eq_zero.mp (Nat.eq_zero_of_not_pos hq)
    refine ⟨t, ?_⟩
    rw [checkMissingResources_queue]
    unfold Factory.startAutomaticProduction
    rw [ht, hqe]
    simp

/-- C9: the waste efficiency penalty is exactly the step function of the
local waste amount — 0 at `amount ≥ 100`, 0.5 on `[95, 100)`, 0.8 on
`[80, 95)`, 1 below 80 — and in a powered `simulate` tick (with the
waste system unlocked and the waste module between emissions) this
multiplier scales every queued job's progress: the queue after the tick
is the original queue advanced by `productionEfficiency × penalty`, with
finished jobs removed, followed only by freshly refilled jobs. -/
theorem waste_penalty_step_function (m : WasteModule) (f : Factory)
    (w : GameWorld) (tick : Int)
    (hu : isUnlocked "local-waste" w.playerLevel = true)
    (hfrozen : ¬ (f.waste.productionRate > 0 ∧ f.waste.wasteType ≠ none ∧
        tick - f.waste.lastProductionTick ≥ f.waste.productionInterval))
    (hp2 : isFullyPowered (f.simulateBase w).2.energy f.powerRequired = true)
    (hadj : 0 < f.productionEfficiency (f.simulateBase w).2 *
        f.waste.getEfficiencyPenalty) :
    ((100 ≤ m.amount → m.getEfficiencyPenalty = 0) ∧
     (95 ≤ m.amount ∧ m.amount < 100 → m.getEfficiencyPenalty = 1/2) ∧
     (80 ≤ m.amount ∧ m.amount < 95 → m.getEfficiencyPenalty = 4/5) ∧
     (m.amount < 80 → m.getEfficiencyPenalty = 1)) ∧
    ∃ tail, (Factory.simulate f w tick).1.productionQueue =
      ((f.productionQueue.map fun j =>
          { j with progress := j.progress +
              f.productionEfficiency (f.simulateBase w).2 *
                f.waste.getEfficiencyPenalty }).filter
        fun j => decide (j.progress < j.totalTime)) ++ tail := by
  constructor
  · unfold WasteModule.getEfficiencyPenalty
    refine ⟨fun h => by rw [if_pos h], fun h => ?_, fun h => ?_, fun h => ?_⟩
    · rw [if_neg (not_le.mpr h.2), if_pos h.1]
    · rw [if_neg (not_le.mpr (lt_of_lt_of_le h.2 (by norm_num))),
        if_neg (not_le.mpr h.2), if_pos h.1]
    · rw [if_neg (not_le.mpr (lt_of_lt_of_le h (by norm_num))),
        if_neg (not_le.mpr (lt_of_lt_of_le h (by norm_num))),
        if_neg (not_le.mpr h)]
  · obtain ⟨s, hs⟩ := simulateBase_fst f w
    obtain ⟨hpl, hrm, hgp, hpm⟩ := simulateBase_world_fields f w
    have hcond : isUnlocked "local-waste" (f.simulateBase w).2.playerLevel = true := by
      rw [hpl]; exact hu
    unfold Factory.simulate
    simp only [hs]
    split
    case isFalse hfalse => exact absurd hcond hfalse
    case isTrue htrue =>
      rw [show ({ f with status := s } : Factory).waste = f.waste from rfl]
      rw [wasteSimulate_frozen f.waste _ _ tick hfrozen]
      dsimp only
      obtain ⟨t, ht⟩ := productionPhase_queue ({ f with status := s })
        (f.simulateBase w).2 f.waste.getEfficiencyPenalty hp2 hadj
      exact ⟨t, ht⟩

/-- A waste module with no waste type assigned (production disabled). -/
def waste9 : WasteModule := { sampleWaste with wasteType := none }

/-- A powered sample factory for the waste-penalty witness: no power or
worker requirement, one queued job, waste production disabled. -/
def wasteFactory9 : Factory :=
  { queuedFactory with powerRequired := 0, requiredWorkers := 0, waste := waste9 }

/-- A level-3 world: the local waste system is unlocked, the policy
panel is still locked. -/
def world9 : GameWorld := { sampleWorld with playerLevel := 3 }

/-- Witness for C9 on the concrete powered factory at tick 0. -/
theorem waste_penalty_step_function_witness :
    ((100 ≤ sampleWaste.amount → sampleWaste.getEfficiencyPenalty = 0) ∧
     (95 ≤ sampleWaste.amount ∧ sampleWaste.amount < 100 →
        sampleWaste.getEfficiencyPenalty = 1/2) ∧
     (80 ≤ sampleWaste.amount ∧ sampleWaste.amount < 95 →
        sampleWaste.getEfficiencyPenalty = 4/5) ∧
     (sampleWaste.amount < 80 → sampleWaste.getEfficiencyPenalty = 1)) ∧
    ∃ tail, (Factory.simulate wasteFactory9 world9 0).1.productionQueue =
      ((wasteFactory9.productionQueue.map fun j =>
          { j with progress := j.progress +
              wasteFactory9.productionEfficiency (wasteFactory9.simulateBase world9).2 *
                wasteFactory9.waste.getEfficiencyPenalty }).filter
        fun j => decide (j.progress < j.totalTime)) ++ tail :=
  waste_penalty_step_function sampleWaste wasteFactory9 world9 0
    (by decide) (by decide) (by decide)
    (by norm_num [wasteFactory9, world9, waste9, queuedFactory, sampleFactory,
      sampleWorld, sampleWaste, Factory.productionEfficiency,
      Factory.currentWorkers, Factory.simulateBase, GameWorld.consumeEnergy,
      isFullyPowered, isUnlocked, unlockLevel, WasteModule.getEfficiencyPenalty,
      getProductionModeEffects, ite_self])

/-! ## C2 — the worker bijection invariant -/

namespace CitizenSim

/-- Updating a citizen record leaves every worker list unchanged. -/
theorem workersOf_setCitizen (w : CWorld) (i : Nat) (c : Citizen) (bid : Nat) :
    workersOf (setCitizen w i c) bid = workersOf w bid := rfl

/-- Updating a worker list leaves the citizen store unchanged. -/
theorem citizens_setWorkers (w : CWorld) (bid : Nat) (l : List Nat) :
    (setWorkers w bid l).citizens = w.citizens := rfl

/-- Pointwise description of `setCitizen`. -/
theorem citizens_setCitizen (w : CWorld) (i : Nat) (c : Citizen) (j : Nat) :
    (setCitizen w i c).citizens j = if j = i then some c else w.citizens j := rfl

/-- Pointwise description of `setWorkers` on worker lists. -/
theorem workersOf_setWorkers (w : CWorld) (bid : Nat) (l : List Nat) (x : Nat) :
    workersOf (setWorkers w bid l) x = if x = bid then l else workersOf w x := by
  unfold workersOf setWorkers
  by_cases h : x = bid
  · simp [h]
  · simp [h]

/-- `layOff` never touches buildings. -/
theorem layOff_buildings : ∀ (ids : List Nat) (w : CWorld),
    (layOff w ids).buildings = w.buildings := by
  intro ids
  induction ids with
  | nil => intro w; rfl
  | cons a ids ih =>
    intro w
    unfold layOff at ih ⊢
    rw [List.foldl_cons, ih]
    cases hca : w.citizens a <;> rfl

/-- `layOff` never touches worker lists. -/
theorem layOff_workersOf (ids : List Nat) (w : CWorld) (bid : Nat) :
    workersOf (layOff w ids) bid = workersOf w bid := by
  unfold workersOf
  rw [layOff_buildings]

/-- Pointwise description of `layOff` on the citizen store: every listed
citizen becomes unemployed with no workplace. -/
theorem layOff_citizens : ∀ (ids : List Nat) (w : CWorld) (i : Nat),
    (layOff w ids).citizens i =
      if i ∈ ids then
        (w.citizens i).map fun c =>
          { c with workplace := none, state := .unemployed, stateCounter := 0 }
      else w.citizens i := by
  intro ids
  induction ids with
  | nil => intro w i; simp [layOff]
  | cons a ids ih =>
    intro w i
    unfold layOff at ih ⊢
    rw [List.foldl_cons, ih]
    by_cases hmem : i ∈ ids
    · rw [if_pos hmem, if_pos (List.mem_cons_of_mem a hmem)]
      by_cases hia : i = a
      · subst hia
        cases hca : w.citizens i
        · simp [hca]
        · simp [citizens_setCitizen]
      · cases hca : w.citizens a
        · rfl
        · simp [citizens_setCitizen, hia]
    · by_cases hia : i = a
      · subst hia
        rw [if_neg hmem, if_pos (List.mem_cons_self i ids)]
        cases hca : w.citizens i
        · simp [hca]
        · simp [citizens_setCitizen, hca]
      · rw [if_neg hmem,
          if_neg (by simp [List.mem_cons, hia, hmem])]
        cases hca : w.citizens a
        · rfl
        · simp [citizens_setCitizen, hia]

/-- When the searching citizen is in nobody's worker list,
`Citizen.#findJob`'s search phase either finds nothing and leaves the
world alone, or appends the citizen to exactly one building's worker
list (a building with a jobs module not already containing them). -/
theorem findJobSearch_spec (w : CWorld) (cid : Nat) (c : Citizen)
    (hni : ∀ bid, cid ∉ workersOf w bid) :
    findJobSearch w cid c = (w, none) ∨
    ∃ bid jm, (w.buildings bid).jobs = some jm ∧ cid ∉ jm.workers ∧
      findJobSearch w cid c =
        (setWorkers w bid (jm.workers ++ [cid]), some bid) := by
  unfold findJobSearch
  cases hft : findTileOf w c.residence with
  | none => exact Or.inl rfl
  | some rt =>
    dsimp only
    by_cases hlen : (collectJobs w cid rt.1 rt.2).length = 0
    · rw [if_pos hlen]
      exact Or.inl rfl
    · rw [if_neg hlen]
      cases hwd : w.workforceDistribution with
      | none =>
        dsimp only
        cases hhead : (sortNoPolicy (collectJobs w cid rt.1 rt.2)).head? with
        | none => exact Or.inl rfl
        | some sel =>
          dsimp only
          cases hjm : (w.buildings sel.bid).jobs with
          | none => exact Or.inl rfl
          | some jm =>
            dsimp only
            have hnm : cid ∉ jm.workers := by
              have := hni sel.bid
              unfold workersOf at this
              rw [hjm] at this
              exact this
            rw [if_neg hnm]
            exact Or.inr ⟨sel.bid, jm, hjm, hnm, rfl⟩
      | some dist =>
        dsimp only
        cases hhead : (scoreJobs w cid dist (collectJobs w cid rt.1 rt.2)).head? with
        | none => exact Or.inl rfl
        | some sel =>
          dsimp only
          cases hjm : (w.buildings sel.bid).jobs with
          | none => exact Or.inl rfl
          | some jm =>
            dsimp only
            have hnm : cid ∉ jm.workers := by
              have := hni sel.bid
              unfold workersOf at this
              rw [hjm] at this
              exact this
            rw [if_neg hnm]
            exact Or.inr ⟨sel.bid, jm, hjm, hnm, rfl⟩

end CitizenSim

namespace CitizenSim

/-- Under the invariant, a workplace-less citizen is in no worker list. -/
theorem workerInv_not_mem (w : CWorld) (hinv : WorkerInv w) (cid : Nat)
    (c : Citizen) (hc : w.citizens cid = some c) (hwp : c.workplace = none) :
    ∀ bid, cid ∉ workersOf w bid := by
  intro bid hmem
  obtain ⟨c2, hc2, hw2⟩ := hinv.2.1 cid bid hmem
  rw [hc] at hc2
  injection hc2 with hc2
  subst hc2
  rw [hwp] at hw2
  exact absurd hw2 (by simp)

/-- Under the invariant, an absent citizen id is in no worker list. -/
theorem workerInv_not_mem_none (w : CWorld) (hinv : WorkerInv w) (cid : Nat)
    (hc : w.citizens cid = none) : ∀ bid, cid ∉ workersOf w bid := by
  intro bid hmem
  obtain ⟨c2, hc2, hw2⟩ := hinv.2.1 cid bid hmem
  rw [hc] at hc2
  exact absurd hc2 (by simp)

/-- Under the invariant, worker-list membership determines the building. -/
theorem workerInv_unique (w : CWorld) (hinv : WorkerInv w) (cid b1 b2 : Nat)
    (h1 : cid ∈ workersOf w b1) (h2 : cid ∈ workersOf w b2) : b1 = b2 := by
  obtain ⟨c1, hc1, hw1⟩ := hinv.2.1 cid b1 h1
  obtain ⟨c2, hc2, hw2⟩ := hinv.2.1 cid b2 h2
  rw [hc1] at hc2
  injection hc2 with hc2
  subst hc2
  rw [hw1] at hw2
  injection hw2

/-- A freshly initialised citizen state is never `employed`. -/
theorem initializeState_ne_employed (w : CWorld) (age : Nat) :
    initializeState w age ≠ CState.employed := by
  unfold initializeState
  split
  · exact fun h => by cases h
  · split
    · exact fun h => by cases h
    · exact fun h => by cases h

/-- Spawning a fresh citizen preserves the worker invariant. -/
theorem workerInv_spawn (w : CWorld) (cid age residence : Nat)
    (hfresh : w.citizens cid = none) (hinv : WorkerInv w) :
    WorkerInv (spawnCitizen w cid age residence) := by
  obtain ⟨hA, hB, hC⟩ := hinv
  unfold spawnCitizen
  refine ⟨?_, ?_, ?_⟩
  · intro x cx hx
    rw [citizens_setCitizen] at hx
    by_cases hxc : x = cid
    · rw [if_pos hxc] at hx
      injection hx with hx
      subst hx
      refine ⟨⟨fun hemp => absurd hemp (initializeState_ne_employed w age),
        fun hwp => absurd rfl hwp⟩, ?_⟩
      intro bid hbid
      exact absurd hbid (by simp)
    · rw [if_neg hxc] at hx
      obtain ⟨h1, h2⟩ := hA x cx hx
      refine ⟨h1, fun bid hbid => ?_⟩
      rw [workersOf_setCitizen]
      exact h2 bid hbid
  · intro x bid hmem
    rw [workersOf_setCitizen] at hmem
    obtain ⟨cx, hcx, hwx⟩ := hB x bid hmem
    refine ⟨cx, ?_, hwx⟩
    rw [citizens_setCitizen, if_neg ?_]
    · exact hcx
    · intro hxc
      subst hxc
      rw [hfresh] at hcx
      exact absurd hcx (by simp)
  · intro bid
    rw [workersOf_setCitizen]
    exact hC bid

/-- Placing a fresh building (empty worker list, no inbound workplace
links) preserves the worker invariant. -/
theorem workerInv_place (w : CWorld) (x y : Int) (bid : Nat) (b : CBuilding)
    (hjobs : ∀ jm, b.jobs = some jm → jm.workers = [])
    (hfresh : ∀ cid c, w.citizens cid = some c → c.workplace ≠ some bid)
    (hinv : WorkerInv w) : WorkerInv (placeBuilding w x y bid b) := by
  obtain ⟨hA, hB, hC⟩ := hinv
  have hwl : ∀ z, workersOf (placeBuilding w x y bid b) z =
      if z = bid then workersOf (placeBuilding w x y bid b) bid
      else workersOf w z := by
    intro z
    by_cases hz : z = bid
    · rw [if_pos hz, hz]
    · rw [if_neg hz]
      unfold workersOf placeBuilding
      simp [hz]
  have hwbid : workersOf (placeBuilding w x y bid b) bid = [] := by
    unfold workersOf placeBuilding
    simp only
    rw [if_pos trivial]
    cases hbj : b.jobs with
    | none => rfl
    | some jm => exact hjobs jm hbj
  have hcit : (placeBuilding w x y bid b).citizens = w.citizens := rfl
  refine ⟨?_, ?_, ?_⟩
  · intro cx c hc
    rw [hcit] at hc
    obtain ⟨h1, h2⟩ := hA cx c hc
    refine ⟨h1, fun bid2 hb2 => ?_⟩
    rw [hwl bid2, if_neg ?_]
    · exact h2 bid2 hb2
    · intro he
      subst he
      exact hfresh cx c hc hb2
  · intro cx bid2 hmem
    rw [hwl bid2] at hmem
    by_cases hz : bid2 = bid
    · rw [if_pos hz, hwbid] at hmem
      exact absurd hmem (by simp)
    · rw [if_neg hz] at hmem
      obtain ⟨c2, hc2, hw2⟩ := hB cx bid2 hmem
      exact ⟨c2, by rw [hcit]; exact hc2, hw2⟩
  · intro bid2
    rw [hwl bid2]
    by_cases hz : bid2 = bid
    · rw [if_pos hz, hwbid]
      exact List.nodup_nil
    · rw [if_neg hz]
      exact hC bid2

end CitizenSim

namespace CitizenSim

/-- Laying off all workers of a building and clearing its worker list
preserves the worker invariant. -/
theorem workerInv_layoffClear (w : CWorld) (bid : Nat) (jm : JobsSt)
    (hjm : (w.buildings bid).jobs = some jm) (hinv : WorkerInv w) :
    WorkerInv (setWorkers (layOff w jm.workers) bid []) := by
  obtain ⟨hA, hB, hC⟩ := hinv
  have hwOf : workersOf w bid = jm.workers := by
    unfold workersOf
    rw [hjm]
  have hwz : ∀ z, workersOf (setWorkers (layOff w jm.workers) bid []) z =
      if z = bid then [] else workersOf w z := by
    intro z
    rw [workersOf_setWorkers]
    by_cases hz : z = bid
    · rw [if_pos hz, if_pos hz]
    · rw [if_neg hz, if_neg hz, layOff_workersOf]
  have hcz : ∀ i, (setWorkers (layOff w jm.workers) bid []).citizens i =
      if i ∈ jm.workers then
        (w.citizens i).map (fun c =>
          { c with workplace := none, state := CState.unemployed, stateCounter := 0 })
      else w.citizens i := by
    intro i
    rw [citizens_setWorkers, layOff_citizens]
  refine ⟨?_, ?_, ?_⟩
  · intro x cx hcx
    rw [hcz] at hcx
    by_cases hxm : x ∈ jm.workers
    · rw [if_pos hxm] at hcx
      cases hq : w.citizens x with
      | none => rw [hq] at hcx; exact absurd hcx (by simp)
      | some c0 =>
        rw [hq] at hcx
        injection hcx with hcx
        subst hcx
        refine ⟨⟨fun hemp => absurd hemp (by simp), fun hwp => absurd rfl hwp⟩, ?_⟩
        intro z hz
        exact absurd hz (by simp)
    · rw [if_neg hxm] at hcx
      obtain ⟨h1, h2⟩ := hA x cx hcx
      refine ⟨h1, fun z hz => ?_⟩
      rw [hwz, if_neg ?_]
      · exact h2 z hz
      · intro he
        subst he
        have := h2 z hz
        rw [hwOf] at this
        exact hxm this
  · intro x z hmem
    rw [hwz] at hmem
    by_cases hz : z = bid
    · rw [if_pos hz] at hmem
      exact absurd hmem (by simp)
    · rw [if_neg hz] at hmem
      obtain ⟨cx, hcx, hwx⟩ := hB x z hmem
      have hxm : x ∉ jm.workers := by
        intro hxm
        rw [← hwOf] at hxm
        obtain ⟨c2, hc2, hw2⟩ := hB x bid hxm
        rw [hcx] at hc2
        injection hc2 with hc2
        subst hc2
        rw [hwx] at hw2
        injection hw2 with hw2
        exact hz hw2
      refine ⟨cx, ?_, hwx⟩
      rw [hcz, if_neg hxm]
      exact hcx
  · intro z
    rw [hwz]
    by_cases hz : z = bid
    · rw [if_pos hz]
      exact List.nodup_nil
    · rw [if_neg hz]
      exact hC z

/-- `JobsModule.simulate` (abandoned-zone layoff) preserves the worker
invariant. -/
theorem workerInv_jobsModule (w : CWorld) (bid : Nat) (hinv : WorkerInv w) :
    WorkerInv (jobsModuleSimulate w bid) := by
  unfold jobsModuleSimulate
  cases hjm : (w.buildings bid).jobs with
  | none => exact hinv
  | some jm =>
    cases hdev : (w.buildings bid).development with
    | none => exact hinv
    | some dev =>
      dsimp only
      by_cases hab : dev.state = DevelopmentState.abandoned
      · rw [if_pos hab]
        exact workerInv_layoffClear w bid jm hjm hinv
      · rw [if_neg hab]
        exact hinv

/-- Bulldozing a building (lay off, clear list, free tiles) preserves
the worker invariant. -/
theorem workerInv_buildingDispose (w : CWorld) (bid : Nat)
    (hinv : WorkerInv w) : WorkerInv (buildingDispose w bid) := by
  unfold buildingDispose
  cases hjm : (w.buildings bid).jobs with
  | none => exact hinv
  | some jm =>
    dsimp only
    exact workerInv_layoffClear w bid jm hjm hinv

/-- Disposing of a citizen (erase from their workplace list, delete the
record) preserves the worker invariant. -/
theorem workerInv_citizenDispose (w : CWorld) (cid : Nat)
    (hinv : WorkerInv w) : WorkerInv (citizenDispose w cid) := by
  obtain ⟨hA, hB, hC⟩ := hinv
  unfold citizenDispose
  cases hc : w.citizens cid with
  | none => exact ⟨hA, hB, hC⟩
  | some c =>
    dsimp only
    cases hwp : c.workplace with
    | none =>
      refine ⟨?_, ?_, ?_⟩
      · intro x cx hcx
        have hcx' : (if x = cid then none else w.citizens x) = some cx := hcx
        by_cases hxc : x = cid
        · rw [if_pos hxc] at hcx'
          exact absurd hcx' (by simp)
        · rw [if_neg hxc] at hcx'
          obtain ⟨h1, h2⟩ := hA x cx hcx'
          exact ⟨h1, fun z hz => h2 z hz⟩
      · intro x z hmem
        have hmem' : x ∈ workersOf w z := hmem
        obtain ⟨cx, hcx, hwx⟩ := hB x z hmem'
        have hxc : x ≠ cid := by
          intro he
          subst he
          rw [hc] at hcx
          injection hcx with hcx
          subst hcx
          rw [hwp] at hwx
          exact absurd hwx (by simp)
        refine ⟨cx, ?_, hwx⟩
        show (if x = cid then none else w.citizens x) = some cx
        rw [if_neg hxc]
        exact hcx
      · exact hC
    | some wp =>
      cases hjm : (w.buildings wp).jobs with
      | none =>
        have hmem : cid ∈ workersOf w wp := (hA cid c hc).2 wp hwp
        have hempty : workersOf w wp = [] := by
          unfold workersOf
          rw [hjm]
        rw [hempty] at hmem
        exact absurd hmem (by simp)
      | some jm =>
        simp only [hjm]
        have hwOf : workersOf w wp = jm.workers := by
          unfold workersOf
          rw [hjm]
        have hNd : jm.workers.Nodup := by
          rw [← hwOf]
          exact hC wp
        refine ⟨?_, ?_, ?_⟩
        · intro x cx hcx
          have hcx' : (if x = cid then none
              else (setWorkers w wp (jm.workers.erase cid)).citizens x) = some cx := hcx
          rw [citizens_setWorkers] at hcx'
          by_cases hxc : x = cid
          · rw [if_pos hxc] at hcx'
            exact absurd hcx' (by simp)
          · rw [if_neg hxc] at hcx'
            obtain ⟨h1, h2⟩ := hA x cx hcx'
            refine ⟨h1, fun z hz => ?_⟩
            show x ∈ workersOf (setWorkers w wp (jm.workers.erase cid)) z
            rw [workersOf_setWorkers]
            by_cases hzw : z = wp
            · rw [if_pos hzw]
              have hx : x ∈ workersOf w z := h2 z hz
              rw [hzw, hwOf] at hx
              exact (List.mem_erase_of_ne hxc).mpr hx
            · rw [if_neg hzw]
              exact h2 z hz
        · intro x z hmem
          have hmem' : x ∈ workersOf (setWorkers w wp (jm.workers.erase cid)) z := hmem
          rw [workersOf_setWorkers] at hmem'
          by_cases hzw : z = wp
          · rw [if_pos hzw] at hmem'
            have hxc : x ≠ cid := (hNd.mem_erase_iff.mp hmem').1
            have hx : x ∈ workersOf w wp := by
              rw [hwOf]
              exact List.mem_of_mem_erase hmem'
            obtain ⟨cx, hcx, hwx⟩ := hB x wp hx
            refine ⟨cx, ?_, by rw [hzw]; exact hwx⟩
            show (if x = cid then none
              else (setWorkers w wp (jm.workers.erase cid)).citizens x) = some cx
            rw [citizens_setWorkers, if_neg hxc]
            exact hcx
          · rw [if_neg hzw] at hmem'
            obtain ⟨cx, hcx, hwx⟩ := hB x z hmem'
            have hxc : x ≠ cid := by
              intro he
              subst he
              rw [hc] at hcx
              injection hcx with hcx
              subst hcx
              rw [hwp] at hwx
              injection hwx with hwx
              exact hzw hwx.symm
            refine ⟨cx, ?_, hwx⟩
            show (if x = cid then none
              else (setWorkers w wp (jm.workers.erase cid)).citizens x) = some cx
            rw [citizens_setWorkers, if_neg hxc]
            exact hcx
        · intro z
          show (workersOf (setWorkers w wp (jm.workers.erase cid)) z).Nodup
          rw [workersOf_setWorkers]
          by_cases hzw : z = wp
          · rw [if_pos hzw]
            exact hNd.erase cid
          · rw [if_neg hzw]
            exact hC z

end CitizenSim

namespace CitizenSim

/-- `setWorkers` seen from its own building: the jobs module holds the
new list. -/
theorem jobs_setWorkers_self (w : CWorld) (bid : Nat) (l : List Nat) :
    ((setWorkers w bid l).buildings bid).jobs = some ⟨l⟩ := by
  unfold setWorkers
  simp

/-- Replacing a citizen record by one with the same state and workplace
preserves the worker invariant. -/
theorem workerInv_setSame (w : CWorld) (cid : Nat) (c c2 : Citizen)
    (hc : w.citizens cid = some c) (hst : c2.state = c.state)
    (hwp : c2.workplace = c.workplace) (hinv : WorkerInv w) :
    WorkerInv (setCitizen w cid c2) := by
  obtain ⟨hA, hB, hC⟩ := hinv
  refine ⟨?_, ?_, ?_⟩
  · intro x cx hcx
    rw [citizens_setCitizen] at hcx
    by_cases hxc : x = cid
    · rw [if_pos hxc] at hcx
      injection hcx with hcx
      subst hcx
      obtain ⟨h1, h2⟩ := hA cid c hc
      subst hxc
      refine ⟨by rw [hst, hwp]; exact h1, fun z hz => ?_⟩
      rw [workersOf_setCitizen]
      exact h2 z (by rw [← hwp]; exact hz)
    · rw [if_neg hxc] at hcx
      obtain ⟨h1, h2⟩ := hA x cx hcx
      refine ⟨h1, fun z hz => ?_⟩
      rw [workersOf_setCitizen]
      exact h2 z hz
  · intro x z hmem
    rw [workersOf_setCitizen] at hmem
    obtain ⟨cx, hcx, hwx⟩ := hB x z hmem
    by_cases hxc : x = cid
    · subst hxc
      rw [hc] at hcx
      injection hcx with hcx
      subst hcx
      refine ⟨c2, ?_, by rw [hwp]; exact hwx⟩
      rw [citizens_setCitizen, if_pos rfl]
    · refine ⟨cx, ?_, hwx⟩
      rw [citizens_setCitizen, if_neg hxc]
      exact hcx
  · intro z
    rw [workersOf_setCitizen]
    exact hC z

/-- Employing a list-less citizen: appending them to one worker list and
marking the record employed there preserves the worker invariant. -/
theorem workerInv_employAppend (w : CWorld) (cid : Nat) (c : Citizen)
    (bid : Nat) (jm : JobsSt) (hc : w.citizens cid = some c)
    (hjm : (w.buildings bid).jobs = some jm)
    (hni : ∀ z, cid ∉ workersOf w z) (hinv : WorkerInv w) (c2 : Citizen)
    (hst : c2.state = CState.employed) (hwp : c2.workplace = some bid) :
    WorkerInv (setCitizen (setWorkers w bid (jm.workers ++ [cid])) cid c2) := by
  obtain ⟨hA, hB, hC⟩ := hinv
  have hwOf : workersOf w bid = jm.workers := by
    unfold workersOf
    rw [hjm]
  have hnm : cid ∉ jm.workers := by
    rw [← hwOf]
    exact hni bid
  have hwz : ∀ z, workersOf (setCitizen (setWorkers w bid (jm.workers ++ [cid])) cid c2) z =
      if z = bid then jm.workers ++ [cid] else workersOf w z := by
    intro z
    rw [workersOf_setCitizen, workersOf_setWorkers]
  have hcz : ∀ x, (setCitizen (setWorkers w bid (jm.workers ++ [cid])) cid c2).citizens x =
      if x = cid then some c2 else w.citizens x := by
    intro x
    rw [citizens_setCitizen, citizens_setWorkers]
  refine ⟨?_, ?_, ?_⟩
  · intro x cx hcx
    rw [hcz] at hcx
    by_cases hxc : x = cid
    · rw [if_pos hxc] at hcx
      injection hcx with hcx
      subst hcx
      subst hxc
      refine ⟨⟨fun _ => by rw [hwp]; simp, fun _ => hst⟩, fun z hz => ?_⟩
      rw [hwp] at hz
      injection hz with hz
      subst hz
      rw [hwz, if_pos rfl]
      simp
    · rw [if_neg hxc] at hcx
      obtain ⟨h1, h2⟩ := hA x cx hcx
      refine ⟨h1, fun z hz => ?_⟩
      rw [hwz]
      by_cases hzb : z = bid
      · rw [if_pos hzb]
        have hx : x ∈ workersOf w z := h2 z hz
        rw [hzb, hwOf] at hx
        exact List.mem_append_left _ hx
      · rw [if_neg hzb]
        exact h2 z hz
  · intro x z hmem
    rw [hwz] at hmem
    by_cases hzb : z = bid
    · rw [if_pos hzb] at hmem
      rcases List.mem_append.mp hmem with hx | hx
      · have hxc : x ≠ cid := fun he => hnm (he ▸ hx)
        obtain ⟨cx, hcx, hwx⟩ := hB x bid (by rw [hwOf]; exact hx)
        refine ⟨cx, ?_, by rw [hzb]; exact hwx⟩
        rw [hcz, if_neg hxc]
        exact hcx
      · have hxc : x = cid := by
          simpa using hx
        subst hxc
        refine ⟨c2, ?_, by rw [hzb]; exact hwp⟩
        rw [hcz, if_pos rfl]
    · rw [if_neg hzb] at hmem
      obtain ⟨cx, hcx, hwx⟩ := hB x z hmem
      have hxc : x ≠ cid := by
        intro he
        subst he
        exact hni z hmem
      refine ⟨cx, ?_, hwx⟩
      rw [hcz, if_neg hxc]
      exact hcx
  · intro z
    rw [hwz]
    by_cases hzb : z = bid
    · rw [if_pos hzb]
      have hNd : jm.workers.Nodup := by
        rw [← hwOf]
        exact hC bid
      rw [List.nodup_append]
      exact ⟨hNd, List.nodup_singleton cid, by simp [List.disjoint_singleton, hnm]⟩
    · rw [if_neg hzb]
      exact hC z

/-- Erasing an employed citizen from their workplace list and marking
the record unemployed preserves the worker invariant. -/
theorem workerInv_eraseUnemploy (w : CWorld) (cid : Nat) (c : Citizen)
    (wp : Nat) (jm : JobsSt) (hc : w.citizens cid = some c)
    (hwp : c.workplace = some wp) (hjm : (w.buildings wp).jobs = some jm)
    (hinv : WorkerInv w) (c2 : Citizen)
    (hst : c2.state ≠ CState.employed) (hwpn : c2.workplace = none) :
    WorkerInv (setCitizen (setWorkers w wp (jm.workers.erase cid)) cid c2) := by
  obtain ⟨hA, hB, hC⟩ := hinv
  have hwOf : workersOf w wp = jm.workers := by
    unfold workersOf
    rw [hjm]
  have hNd : jm.workers.Nodup := by
    rw [← hwOf]
    exact hC wp
  have hwz : ∀ z, workersOf (setCitizen (setWorkers w wp (jm.workers.erase cid)) cid c2) z =
      if z = wp then jm.workers.erase cid else workersOf w z := by
    intro z
    rw [workersOf_setCitizen, workersOf_setWorkers]
  have hcz : ∀ x, (setCitizen (setWorkers w wp (jm.workers.erase cid)) cid c2).citizens x =
      if x = cid then some c2 else w.citizens x := by
    intro x
    rw [citizens_setCitizen, citizens_setWorkers]
  refine ⟨?_, ?_, ?_⟩
  · intro x cx hcx
    rw [hcz] at hcx
    by_cases hxc : x = cid
    · rw [if_pos hxc] at hcx
      injection hcx with hcx
      subst hcx
      refine ⟨⟨fun hemp => absurd hemp hst, fun hq => absurd hwpn hq⟩, ?_⟩
      intro z hz
      rw [hwpn] at hz
      exact absurd hz (by simp)
    · rw [if_neg hxc] at hcx
      obtain ⟨h1, h2⟩ := hA x cx hcx
      refine ⟨h1, fun z hz => ?_⟩
      rw [hwz]
      by_cases hzw : z = wp
      · rw [if_pos hzw]
        have hx : x ∈ workersOf w z := h2 z hz
        rw [hzw, hwOf] at hx
        exact (List.mem_erase_of_ne hxc).mpr hx
      · rw [if_neg hzw]
        exact h2 z hz
  · intro x z hmem
    rw [hwz] at hmem
    by_cases hzw : z = wp
    · rw [if_pos hzw] at hmem
      have hxc : x ≠ cid := (hNd.mem_erase_iff.mp hmem).1
      obtain ⟨cx, hcx, hwx⟩ := hB x wp (by rw [hwOf]; exact List.mem_of_mem_erase hmem)
      refine ⟨cx, ?_, by rw [hzw]; exact hwx⟩
      rw [hcz, if_neg hxc]
      exact hcx
    · rw [if_neg hzw] at hmem
      obtain ⟨cx, hcx, hwx⟩ := hB x z hmem
      have hxc : x ≠ cid := by
        intro he
        subst he
        rw [hc] at hcx
        injection hcx with hcx
        subst hcx
        rw [hwp] at hwx
        injection hwx with hwx
        exact hzw hwx.symm
      refine ⟨cx, ?_, hwx⟩
      rw [hcz, if_neg hxc]
      exact hcx
  · intro z
    rw [hwz]
    by_cases hzw : z = wp
    · rw [if_pos hzw]
      exact hNd.erase cid
    · rw [if_neg hzw]
      exact hC z

end CitizenSim

namespace CitizenSim

/-- The per-tick citizen state machine preserves the worker invariant. -/
theorem workerInv_citizenSimulate (w : CWorld) (cid : Nat)
    (hinv : WorkerInv w) : WorkerInv (citizenSimulate w cid) := by
  unfold citizenSimulate
  cases hc : w.citizens cid with
  | none => exact hinv
  | some c =>
    dsimp only
    cases hst : c.state with
    | idle => exact hinv
    | school => exact hinv
    | retired => exact hinv
    | unemployed =>
      dsimp only
      have hne : c.state ≠ CState.employed := by
        rw [hst]
        simp
      have hwpn : c.workplace = none := by
        by_contra hq
        exact hne ((hinv.1 cid c hc).1.mpr hq)
      rw [if_pos hwpn]
      unfold findJob
      rw [hwpn]
      have hni : ∀ z, cid ∉ workersOf w z :=
        workerInv_not_mem w hinv cid c hc hwpn
      rcases findJobSearch_spec w cid c hni with hspec | ⟨bid, jm, hjm, hnm, hspec⟩
      · rw [hspec]
        dsimp only
        exact workerInv_setSame w cid c
          { c with state := CState.unemployed, workplace := none } hc hst.symm
          hwpn.symm hinv
      · rw [hspec]
        dsimp only
        rw [jobs_setWorkers_self]
        dsimp only
        rw [if_pos (show cid ∈ jm.workers ++ [cid] by simp)]
        exact workerInv_employAppend w cid c bid jm hc hjm hni hinv
          { c with workplace := some bid, state := CState.employed, stateCounter := 0 }
          rfl rfl
    | employed =>
      dsimp only
      cases hwpc : c.workplace with
      | none => exact absurd hwpc ((hinv.1 cid c hc).1.mp hst)
      | some wp =>
        dsimp only
        have hmem0 : cid ∈ workersOf w wp := (hinv.1 cid c hc).2 wp hwpc
        cases hjm : (w.buildings wp).jobs with
        | none =>
          have hempty : workersOf w wp = [] := by
            unfold workersOf
            rw [hjm]
          rw [hempty] at hmem0
          exact absurd hmem0 (by simp)
        | some jm =>
          simp only [hjm]
          have hmem : cid ∈ jm.workers := by
            have h := hmem0
            unfold workersOf at h
            rw [hjm] at h
            exact h
          rw [if_pos hmem]
          dsimp only
          by_cases hcnt : c.stateCounter % 20 = 0
          · rw [if_pos ⟨rfl, hcnt⟩]
            by_cases hex : ((coordList w.size).any fun p =>
                decide (w.tile p.1 p.2 = some wp)) = false
            · rw [if_pos hex]
              simp only [hjm]
              exact workerInv_eraseUnemploy w cid c wp jm hc hwpc hjm hinv
                { c with workplace := none, state := CState.unemployed, stateCounter := 0 }
                (by simp) rfl
            · rw [if_neg hex]
              exact workerInv_setSame w cid c
                { c with state := CState.employed, workplace := some wp, stateCounter := c.stateCounter + 1 } hc hst.symm hwpc.symm hinv
          · rw [if_neg (fun hq => hcnt hq.2)]
            rw [if_neg (by simp : ¬ ((true : Bool) = false))]
            exact workerInv_setSame w cid c
              { c with state := CState.employed, workplace := some wp, stateCounter := c.stateCounter + 1 } hc hst.symm hwpc.symm hinv

end CitizenSim

namespace CitizenSim

/-- Every simulation step preserves the worker invariant. -/
theorem workerInv_step (w w2 : CWorld) (hinv : WorkerInv w)
    (hs : Step w w2) : WorkerInv w2 := by
  cases hs with
  | citizen cid => exact workerInv_citizenSimulate w cid hinv
  | jobsModule bid => exact workerInv_jobsModule w bid hinv
  | disposeCitizen cid => exact workerInv_citizenDispose w cid hinv
  | disposeBuilding bid => exact workerInv_buildingDispose w bid hinv
  | spawn cid age residence h => exact workerInv_spawn w cid age residence h hinv
  | place x y bid b hjobs hfresh hw => exact workerInv_place w x y bid b hjobs hfresh hinv

/-- A pre-employment world satisfies the worker invariant. -/
theorem workerInv_init (w : CWorld) (h : InitialWorld w) : WorkerInv w := by
  obtain ⟨hcit, hwrk⟩ := h
  refine ⟨?_, ?_, ?_⟩
  · intro cid c hc
    obtain ⟨h1, h2⟩ := hcit cid c hc
    refine ⟨⟨fun hemp => absurd hemp h2, fun hq => absurd h1 hq⟩, ?_⟩
    intro bid hb
    rw [h1] at hb
    exact absurd hb (by simp)
  · intro cid bid hmem
    rw [hwrk bid] at hmem
    exact absurd hmem (by simp)
  · intro bid
    rw [hwrk bid]
    exact List.nodup_nil

/-- A one-building, one-citizen world used to instantiate the
reachability hypothesis: nobody is yet employed. -/
def startWorld : CWorld :=
  { size := 2,
    tile := fun x y => if x = 0 ∧ y = 0 then some 0 else none,
    buildings := fun _ =>
      { btype := "residential", jobs := none, requiredWorkers := none,
        maxWorkersProp := none, development := none },
    citizens := fun i => if i = 0 then
      some { age := 30, state := CState.unemployed, stateCounter := 0,
             residence := 0, workplace := none }
      else none,
    workforceDistribution := none, cfgJobsMaxWorkers := 5,
    maxJobSearchDistance := 10, minWorkingAge := 18, retirementAge := 65 }

end CitizenSim

namespace CitizenSim

/-- C2: the worker bijection invariant holds in every state reachable
by simulation steps — a citizen's workplace link is non-null exactly
when their state is `employed`; whenever the link points at a building
the citizen id is a member of that building's jobs-module worker list
and conversely every worker-list member's record points back at that
building; and (worker lists being duplicate-free with back-links) no
citizen is a member of two buildings' worker lists at once. -/
theorem worker_bijection_invariant (w : CWorld) (h : Reachable w) :
    WorkerInv w ∧
    ∀ cid b1 b2, cid ∈ workersOf w b1 → cid ∈ workersOf w b2 → b1 = b2 := by
  have hinv : WorkerInv w := by
    induction h with
    | init w h0 => exact workerInv_init w h0
    | step w w2 h0 hs ih => exact workerInv_step w w2 ih hs
  exact ⟨hinv, fun cid b1 b2 h1 h2 => workerInv_unique w hinv cid b1 b2 h1 h2⟩

/-- Witness for C2 at a concrete world reached by one simulation tick
of its only citizen. -/
theorem worker_bijection_invariant_witness :
    WorkerInv (citizenSimulate startWorld 0) ∧
    ∀ cid b1 b2, cid ∈ workersOf (citizenSimulate startWorld 0) b1 →
      cid ∈ workersOf (citizenSimulate startWorld 0) b2 → b1 = b2 :=
  worker_bijection_invariant (citizenSimulate startWorld 0)
    (Reachable.step startWorld (citizenSimulate startWorld 0)
      (Reachable.init startWorld
        ⟨fun cid c hc => by
          by_cases h0 : cid = 0
          · subst h0
            refine ⟨?_, ?_⟩
            · have hc' : (if (0 : Nat) = 0 then some
                  { age := 30, state := CState.unemployed, stateCounter := 0,
                    residence := 0, workplace := none }
                  else none) = some c := hc
              rw [if_pos rfl] at hc'
              injection hc' with hc'
              subst hc'
              rfl
            · have hc' : (if (0 : Nat) = 0 then some
                  { age := 30, state := CState.unemployed, stateCounter := 0,
                    residence := 0, workplace := none }
                  else none) = some c := hc
              rw [if_pos rfl] at hc'
              injection hc' with hc'
              subst hc'
              simp
          · have hc' : (if cid = 0 then some
                { age := 30, state := CState.unemployed, stateCounter := 0,
                  residence := 0, workplace := none }
                else none) = some c := hc
            rw [if_neg h0] at hc'
            exact absurd hc' (by simp),
        fun bid => rfl⟩)
      (Step.citizen startWorld 0))

end CitizenSim

end CityGame
